import Mathlib

/-!
Verification of the derived-image cache core of the AutoRAG-data desktop
application (Rust sources under `src-tauri/src`).  The development shallowly
embeds the filesystem-bound cache manager (`cache/manager.rs`), the source
classifier and the resolution orchestrator commands (`commands/cache.rs`)
as pure Lean functions over an explicit filesystem state, and proves the
specification's claims about them.

Modelling conventions:
* A filesystem path is a list of components (`FsPath`); byte strings are
  lists of naturals (`Bytes`).
* The filesystem `FS` is an association list of files plus a list of
  directories, together with an oracle `failWrites` naming the paths at
  which a write fails.  A failed write models the behaviour of Rust's
  `File::create`-then-encode pipeline used by `image`'s
  `save_with_format` (and `std::fs::write`): the file is created before the
  bytes are streamed, so a failing write leaves a partial (here: empty)
  file behind.
* The image library (`image` crate) is abstracted by an `ImgOps` record of
  decode / resize / encode functions; the PDF renderer (`pdftoppm` via
  `render_page_to_png`) by a function parameter.
* Asynchronous suspension points and the `Mutex<Option<CacheManager>>`
  critical sections of the command handlers are recorded in an explicit
  event trace (`Ev`), so lock-discipline properties can be stated.
-/

namespace AutoRag

abbrev Bytes := List Nat

abbrev FsPath := List String

/-- Filesystem state: files with contents, existing directories, and the
set of paths at which a write operation fails (the failure oracle). -/
structure FS where
  files : List (FsPath × Bytes)
  dirs : List FsPath
  failWrites : List FsPath
deriving DecidableEq, Repr

/-- `p` lies inside the subtree rooted at `d` (including `d` itself). -/
def isUnder (p d : FsPath) : Bool := p.take d.length == d

/-- All nonempty prefixes of a path, shortest first. -/
def prefixesOf (p : FsPath) : List FsPath :=
  (List.range p.length).map (fun i => p.take (i + 1))

def FS.fileContent (fs : FS) (p : FsPath) : Option Bytes :=
  (fs.files.find? (fun e => e.1 == p)).map (fun e => e.2)

def FS.fileExists (fs : FS) (p : FsPath) : Bool :=
  (fs.files.find? (fun e => e.1 == p)).isSome

/-- Rust `Path::exists`: true for files and directories alike. -/
def FS.pathExists (fs : FS) (p : FsPath) : Bool :=
  fs.fileExists p || fs.dirs.contains p

/-- `std::fs::create_dir_all`: creates the directory and all ancestors. -/
def FS.createDirAll (fs : FS) (p : FsPath) : FS :=
  { fs with dirs := prefixesOf p ++ fs.dirs }

/-- Remove a whole subtree (`std::fs::remove_dir_all`). -/
def FS.removeSubtree (fs : FS) (d : FsPath) : FS :=
  { fs with
    files := fs.files.filter (fun e => !(isUnder e.1 d)),
    dirs := fs.dirs.filter (fun q => !(isUnder q d)) }

/-- Errors of the application (`error.rs`, `AppError`). -/
inductive AppError where
  | database : String → AppError
  | io : String → AppError
  | notConnected : AppError
  | cache : String → AppError
  | notFound : String → AppError
  | pdf : String → AppError
deriving DecidableEq, Repr

instance exceptDecEq {ε α : Type} [DecidableEq ε] [DecidableEq α] :
    DecidableEq (Except ε α)
  | Except.ok a, Except.ok b =>
    if h : a = b then Decidable.isTrue (by rw [h])
    else Decidable.isFalse (by intro hc; injection hc; contradiction)
  | Except.ok _, Except.error _ =>
    Decidable.isFalse (by intro h; exact Except.noConfusion h)
  | Except.error _, Except.ok _ =>
    Decidable.isFalse (by intro h; exact Except.noConfusion h)
  | Except.error e, Except.error f =>
    if h : e = f then Decidable.isTrue (by rw [h])
    else Decidable.isFalse (by intro hc; injection hc; contradiction)

/-- Create-then-write a file.  Models `File::create` followed by streaming
the encoded bytes (`image::DynamicImage::save_with_format`, and
`std::fs::write`): if the oracle says the write at `p` fails, the call
errors but the freshly created (partial, here empty) file remains. -/
def FS.writeFile (fs : FS) (p : FsPath) (b : Bytes) :
    Except AppError FsPath × FS :=
  let rest := fs.files.filter (fun e => !(e.1 == p))
  if fs.failWrites.contains p then
    (Except.error (AppError.io "write failed"), { fs with files := (p, []) :: rest })
  else
    (Except.ok p, { fs with files := (p, b) :: rest })

/-- Total size of all files inside the subtree rooted at `d`
(`CacheManager::dir_size` flattened over the tree). -/
def FS.treeSize (fs : FS) (d : FsPath) : Nat :=
  ((fs.files.filter (fun e => isUnder e.1 d)).map (fun e => e.2.length)).sum

/-- Abstraction of the `image` crate: decoding (may fail), aspect-ratio
resizing, WebP encoding.  Decoded images are abstract tokens. -/
structure ImgOps where
  decode : Bytes → Option Nat
  resize : Nat → Nat → Nat → Nat
  encodeWebP : Nat → Bytes

/-- `cache/manager.rs`: the cache manager owns a cache directory. -/
structure CacheManager where
  cacheDir : FsPath
deriving DecidableEq, Repr

namespace CacheManager

/-- `CacheManager::thumbnail_path`. -/
def thumbnail_path (cm : CacheManager) (dbName : String) (chunkId : Int) : FsPath :=
  cm.cacheDir ++ ["thumbnails", dbName, toString chunkId ++ ".webp"]

/-- `CacheManager::preview_path`. -/
def preview_path (cm : CacheManager) (dbName : String) (chunkId : Int) : FsPath :=
  cm.cacheDir ++ ["previews", dbName, toString chunkId ++ ".webp"]

/-- `CacheManager::has_thumbnail`. -/
def has_thumbnail (cm : CacheManager) (fs : FS) (dbName : String) (chunkId : Int) : Bool :=
  fs.pathExists (cm.thumbnail_path dbName chunkId)

/-- `CacheManager::has_preview`. -/
def has_preview (cm : CacheManager) (fs : FS) (dbName : String) (chunkId : Int) : Bool :=
  fs.pathExists (cm.preview_path dbName chunkId)

/-- `CacheManager::generate_thumbnail_from_bytes`: skip if the target
exists, else ensure the namespace directory, decode, resize to 200,
save as WebP. -/
def generate_thumbnail_from_bytes (cm : CacheManager) (ops : ImgOps) (fs : FS)
    (imageBytes : Bytes) (dbName : String) (chunkId : Int) :
    Except AppError FsPath × FS :=
  let tp := cm.thumbnail_path dbName chunkId
  if fs.pathExists tp then
    (Except.ok tp, fs)
  else
    let fs1 := fs.createDirAll tp.dropLast
    match ops.decode imageBytes with
    | none => (Except.error (AppError.io "Failed to decode image"), fs1)
    | some img => fs1.writeFile tp (ops.encodeWebP (ops.resize img 200 200))

/-- `CacheManager::generate_preview_from_bytes`: same shape with the
preview path and max dimension 1200. -/
def generate_preview_from_bytes (cm : CacheManager) (ops : ImgOps) (fs : FS)
    (imageBytes : Bytes) (dbName : String) (chunkId : Int) :
    Except AppError FsPath × FS :=
  let pp := cm.preview_path dbName chunkId
  if fs.pathExists pp then
    (Except.ok pp, fs)
  else
    let fs1 := fs.createDirAll pp.dropLast
    match ops.decode imageBytes with
    | none => (Except.error (AppError.io "Failed to decode image"), fs1)
    | some img => fs1.writeFile pp (ops.encodeWebP (ops.resize img 1200 1200))

/-- `CacheManager::clear_db_cache`: remove the namespace subdirectory
under `thumbnails` and under `previews`, each only if present.  The
source propagates `fs::remove_dir_all` errors with `?`; the model treats
removal as succeeding (no removal-failure oracle), so no theorem below
asserts infallibility of a clear that actually attempts a removal — only
the absent-namespace case, where no removal is attempted, is stated to
return `Ok`. -/
def clear_db_cache (cm : CacheManager) (fs : FS) (dbName : String) :
    Except AppError Unit × FS :=
  let td := cm.cacheDir ++ ["thumbnails", dbName]
  let fs1 := if fs.pathExists td then fs.removeSubtree td else fs
  let pd := cm.cacheDir ++ ["previews", dbName]
  let fs2 := if fs1.pathExists pd then fs1.removeSubtree pd else fs1
  (Except.ok (), fs2)

/-- `CacheManager::clear_cache`: remove and recreate `thumbnails/` and
`previews/`, each only if present.  As with `clear_db_cache`, the
source propagates `fs::remove_dir_all`/`create_dir_all` errors with `?`;
the model treats them as succeeding, and the theorems below describe a
successful clear. -/
def clear_cache (cm : CacheManager) (fs : FS) : Except AppError Unit × FS :=
  let td := cm.cacheDir ++ ["thumbnails"]
  let fs1 := if fs.pathExists td then (fs.removeSubtree td).createDirAll td else fs
  let pd := cm.cacheDir ++ ["previews"]
  let fs2 := if fs1.pathExists pd then (fs1.removeSubtree pd).createDirAll pd else fs1
  (Except.ok (), fs2)

/-- `CacheManager::get_cache_size`: recursive size of the cache root, 0
if the root does not exist. -/
def get_cache_size (cm : CacheManager) (fs : FS) : Nat :=
  if fs.pathExists cm.cacheDir then fs.treeSize cm.cacheDir else 0

/-- Modelled from the spec: `CacheManager::original_path` is called from
`commands/cache.rs` but absent from the sources.  Spec §6 fixes the
layout `root/originals/<namespace>/<id>.<ext>` (third top-level
subdirectory `originals/`); the original tier stores a render verbatim
in its native encoding, here PNG. -/
def original_path (cm : CacheManager) (dbName : String) (pageId : Int) : FsPath :=
  cm.cacheDir ++ ["originals", dbName, toString pageId ++ ".png"]

/-- Modelled from the spec: `CacheManager::save_original` is called from
`commands/cache.rs` but absent from the sources.  Spec §4.1/§6: persist
the bytes verbatim at the original-tier path (ensuring the namespace
directory) and return the path. -/
def save_original (cm : CacheManager) (fs : FS) (bytes : Bytes)
    (dbName : String) (pageId : Int) : Except AppError FsPath × FS :=
  let p := cm.original_path dbName pageId
  let fs1 := fs.createDirAll p.dropLast
  fs1.writeFile p bytes

end CacheManager

/-! ### Source classification (`commands/cache.rs`) -/

/-- `SourceType` from `commands/cache.rs`. -/
inductive SourceType where
  | image : FsPath → SourceType
  | pdf : FsPath → SourceType
  | none : SourceType
deriving DecidableEq, Repr

/-- Split a character list at `/` separators (the semantics of
`String.splitOn "/"`, defined structurally so it computes by `decide`). -/
def splitComponents : List Char → List String
  | [] => [""]
  | c :: rest =>
    let r := splitComponents rest
    if c = '/' then "" :: r
    else
      match r with
      | [] => [String.mk [c]]
      | h :: t => String.mk (c :: h.data) :: t

/-- `Path::new` on a Unix path string: split into components.  `.`/`..`
normalisation performed by Rust's component iterator is not modelled; no
claim concerns such paths. -/
def parsePath (s : String) : FsPath := splitComponents s.data

/-- `PathBuf::to_string_lossy` for paths built from Unix components. -/
def pathToString (p : FsPath) : String := String.intercalate "/" p

/-- Rust `char::to_ascii_lowercase`: only `A`–`Z` are mapped. -/
def asciiLowerChar (c : Char) : Char :=
  if 'A' ≤ c ∧ c ≤ 'Z' then Char.ofNat (c.toNat + 32) else c

/-- Rust `str::to_ascii_lowercase`. -/
def asciiLower (s : String) : String := String.mk (s.data.map asciiLowerChar)

/-- Rust `Path::extension` on a single file-name component: the portion
after the final dot, none when there is no dot or the only dot is the
leading character (hidden file). -/
def rustExtension (s : String) : Option String :=
  let revc := s.data.reverse
  let extRev := revc.takeWhile (fun c => c ≠ '.')
  match revc.drop extRev.length with
  | [] => Option.none
  | [_] => Option.none
  | _ => Option.some (String.mk extRev.reverse)

/-- `Path::extension` of a parsed path: extension of its last component. -/
def pathExtension (p : FsPath) : Option String :=
  match p.getLast? with
  | Option.none => Option.none
  | Option.some name => rustExtension name

/-- `classify_source` from `commands/cache.rs`: empty or absent hint gives
no source; otherwise the path must exist; png/jpg/jpeg/webp (ASCII
case-insensitive) are direct images, pdf is renderable, anything else is
no source. -/
def classify_source (fs : FS) (sourcePath : Option String) : SourceType :=
  match sourcePath with
  | Option.none => SourceType.none
  | Option.some s =>
    if s.isEmpty then SourceType.none
    else
      let p := parsePath s
      if !fs.pathExists p then SourceType.none
      else
        match (pathExtension p).map asciiLower with
        | Option.some e =>
          if e = "png" ∨ e = "jpg" ∨ e = "jpeg" ∨ e = "webp" then SourceType.image p
          else if e = "pdf" then SourceType.pdf p
          else SourceType.none
        | Option.none => SourceType.none

/-! ### Database model (the relational collaborator) -/

/-- A row of `page`, with the coalesced source-path of
`query_page_source_info` folded in. -/
structure PageRow where
  id : Int
  documentId : Int
  pageNum : Int
  sourcePath : Option String
  imageContents : Option Bytes
deriving DecidableEq, Repr

/-- A row of `image_chunk`. -/
structure ChunkRow where
  id : Int
  parentPage : Int
  contents : Bytes
deriving DecidableEq, Repr

structure Db where
  pages : List PageRow
  chunks : List ChunkRow
deriving DecidableEq, Repr

def Db.findPage (db : Db) (pageId : Int) : Option PageRow :=
  db.pages.find? (fun p => p.id == pageId)

/-- `query_page_source_info`: page_num and coalesced source_path of one
page; `fetch_one` errors when the row is absent. -/
def query_page_source_info (db : Db) (pageId : Int) :
    Except AppError (Int × Option String) :=
  match db.findPage pageId with
  | Option.none => Except.error (AppError.database "row not found")
  | Option.some p => Except.ok (p.pageNum, p.sourcePath)

/-- `SELECT image_contents FROM page WHERE id = $1` via `fetch_one`. -/
def queryPageImageContents (db : Db) (pageId : Int) :
    Except AppError (Option Bytes) :=
  match db.findPage pageId with
  | Option.none => Except.error (AppError.database "row not found")
  | Option.some p => Except.ok p.imageContents

/-- `SELECT id FROM image_chunk WHERE parent_page = $1 ORDER BY id ASC
LIMIT 1` via `fetch_optional`: the least chunk id of the page. -/
def Db.firstChunkId (db : Db) (pageId : Int) : Option Int :=
  ((db.chunks.filter (fun c => c.parentPage == pageId)).map (fun c => c.id)).min?

/-- `SELECT contents FROM image_chunk WHERE id = $1` via `fetch_one`. -/
def queryChunkContents (db : Db) (chunkId : Int) : Except AppError Bytes :=
  match db.chunks.find? (fun c => c.id == chunkId) with
  | Option.none => Except.error (AppError.database "row not found")
  | Option.some c => Except.ok c.contents

/-- Stage-1 prefetch query (`DISTINCT ON (p.id) ic.id … ORDER BY p.id,
ic.id ASC`): the least chunk id of every page of the document that has a
chunk.  Row order (sorted by page id in SQL) is abstracted to table
order; no claim depends on it. -/
def Db.prefetchChunkIds (db : Db) (documentId : Int) : List Int :=
  (db.pages.filter (fun p => p.documentId == documentId)).filterMap
    (fun p => db.firstChunkId p.id)

/-- `SELECT id, contents FROM image_chunk WHERE id = ANY($1)`. -/
def Db.batchChunks (db : Db) (ids : List Int) : List (Int × Bytes) :=
  (db.chunks.filter (fun c => ids.contains c.id)).map (fun c => (c.id, c.contents))

/-! ### Command-level lock helpers (`commands/cache.rs`)

Each helper acquires the `Mutex<Option<CacheManager>>`, errors with a
cache error when the manager is `None`, performs the filesystem work and
releases the lock.  The lock events are emitted by the orchestrator
functions below, around each helper call. -/

def check_and_get_original_path (cache : Option CacheManager) (fs : FS)
    (dbName : String) (pageId : Int) : Except AppError (FsPath × Bool) :=
  match cache with
  | Option.none => Except.error (AppError.cache "Cache manager not initialized")
  | Option.some cm =>
    let path := cm.original_path dbName pageId
    Except.ok (path, fs.pathExists path)

def saveOriginalCmd (cache : Option CacheManager) (fs : FS) (bytes : Bytes)
    (dbName : String) (pageId : Int) : Except AppError FsPath × FS :=
  match cache with
  | Option.none => (Except.error (AppError.cache "Cache manager not initialized"), fs)
  | Option.some cm => cm.save_original fs bytes dbName pageId

def check_and_get_thumbnail_path (cache : Option CacheManager) (fs : FS)
    (dbName : String) (chunkId : Int) : Except AppError (FsPath × Bool) :=
  match cache with
  | Option.none => Except.error (AppError.cache "Cache manager not initialized")
  | Option.some cm =>
    let path := cm.thumbnail_path dbName chunkId
    Except.ok (path, fs.pathExists path)

def generateThumbnailCmd (cache : Option CacheManager) (ops : ImgOps) (fs : FS)
    (imageBytes : Bytes) (dbName : String) (chunkId : Int) :
    Except AppError FsPath × FS :=
  match cache with
  | Option.none => (Except.error (AppError.cache "Cache manager not initialized"), fs)
  | Option.some cm => cm.generate_thumbnail_from_bytes ops fs imageBytes dbName chunkId

def check_and_get_preview_path (cache : Option CacheManager) (fs : FS)
    (dbName : String) (chunkId : Int) : Except AppError (FsPath × Bool) :=
  match cache with
  | Option.none => Except.error (AppError.cache "Cache manager not initialized")
  | Option.some cm =>
    let path := cm.preview_path dbName chunkId
    Except.ok (path, fs.pathExists path)

def generatePreviewCmd (cache : Option CacheManager) (ops : ImgOps) (fs : FS)
    (imageBytes : Bytes) (dbName : String) (chunkId : Int) :
    Except AppError FsPath × FS :=
  match cache with
  | Option.none => (Except.error (AppError.cache "Cache manager not initialized"), fs)
  | Option.some cm => cm.generate_preview_from_bytes ops fs imageBytes dbName chunkId

def hasThumbnailCmd (cache : Option CacheManager) (fs : FS)
    (dbName : String) (chunkId : Int) : Except AppError Bool :=
  match cache with
  | Option.none => Except.error (AppError.cache "Cache manager not initialized")
  | Option.some cm => Except.ok (cm.has_thumbnail fs dbName chunkId)

/-! ### Orchestrator commands with event traces -/

/-- Observable events of a command handler: asynchronous suspension
points (state lookups and database round-trips, `spawn_blocking` render
waits) and acquisition/release of the cache mutex. -/
inductive Ev where
  | await : Ev
  | awaitDb : Ev
  | awaitRender : Ev
  | lockAcq : Ev
  | lockRel : Ev
deriving DecidableEq, Repr

/-- Request environment: the managed `AppState` (database identifier and
pool), the external renderer (`render_page_to_png` behind
`spawn_blocking`) and the image library. -/
structure Env where
  dbIdentifier : Option String
  pool : Option Db
  render : FsPath → Int → Option Bytes
  imgOps : ImgOps

/-- `read_bytes_from_source`: direct file read for images, rendered page
for PDFs, nothing otherwise. -/
def read_bytes_from_source (fs : FS) (render : FsPath → Int → Option Bytes)
    (source : SourceType) (pageNum : Int) : Option Bytes :=
  match source with
  | SourceType.image p => fs.fileContent p
  | SourceType.pdf p => render p pageNum
  | SourceType.none => Option.none

/-- Suspension events performed by `read_bytes_from_source`: only the
PDF branch awaits the blocking render task. -/
def readSourceEv (source : SourceType) : List Ev :=
  match source with
  | SourceType.pdf _ => [Ev.awaitRender]
  | _ => []

/-- `get_page_image_url` (`commands/cache.rs`): direct image → its path;
else originals-cache hit → cached path; else render from PDF source and
persist; else BYTEA fallback from the database, persisted; NotFound when
the column is NULL. -/
def get_page_image_url (env : Env) (cache : Option CacheManager) (fs : FS)
    (pageId : Int) : Except AppError String × FS × List Ev :=
  match env.dbIdentifier with
  | Option.none => (Except.error AppError.notConnected, fs, [Ev.await])
  | Option.some dbName =>
    match env.pool with
    | Option.none => (Except.error AppError.notConnected, fs, [Ev.await, Ev.await])
    | Option.some db =>
      let tr0 := [Ev.await, Ev.await, Ev.awaitDb]
      match query_page_source_info db pageId with
      | Except.error e => (Except.error e, fs, tr0)
      | Except.ok info =>
        let source := classify_source fs info.2
        match source with
        | SourceType.image p => (Except.ok (pathToString p), fs, tr0)
        | _ =>
          let tr1 := tr0 ++ [Ev.lockAcq, Ev.lockRel]
          match check_and_get_original_path cache fs dbName pageId with
          | Except.error e => (Except.error e, fs, tr1)
          | Except.ok (originalPath, cached) =>
            if cached then (Except.ok (pathToString originalPath), fs, tr1)
            else
              let tr2 := tr1 ++ readSourceEv source
              match read_bytes_from_source fs env.render source info.1 with
              | Option.some bytes =>
                let tr3 := tr2 ++ [Ev.lockAcq, Ev.lockRel]
                match saveOriginalCmd cache fs bytes dbName pageId with
                | (Except.error e, fs2) => (Except.error e, fs2, tr3)
                | (Except.ok p, fs2) => (Except.ok (pathToString p), fs2, tr3)
              | Option.none =>
                let tr3 := tr2 ++ [Ev.awaitDb]
                match queryPageImageContents db pageId with
                | Except.error e => (Except.error e, fs, tr3)
                | Except.ok Option.none =>
                  (Except.error (AppError.notFound
                    ("Page " ++ toString pageId ++ " has no image contents")), fs, tr3)
                | Except.ok (Option.some contents) =>
                  let tr4 := tr3 ++ [Ev.lockAcq, Ev.lockRel]
                  match saveOriginalCmd cache fs contents dbName pageId with
                  | (Except.error e, fs2) => (Except.error e, fs2, tr4)
                  | (Except.ok p, fs2) => (Except.ok (pathToString p), fs2, tr4)

/-- `get_thumbnail_url`: first chunk id of the page, cached thumbnail if
present, else fetch the chunk bytes and generate. -/
def get_thumbnail_url (env : Env) (cache : Option CacheManager) (fs : FS)
    (pageId : Int) : Except AppError String × FS × List Ev :=
  match env.dbIdentifier with
  | Option.none => (Except.error AppError.notConnected, fs, [Ev.await])
  | Option.some dbName =>
    match env.pool with
    | Option.none => (Except.error AppError.notConnected, fs, [Ev.await, Ev.await])
    | Option.some db =>
      let tr0 := [Ev.await, Ev.await, Ev.awaitDb]
      match db.firstChunkId pageId with
      | Option.none =>
        (Except.error (AppError.notFound
          ("Page " ++ toString pageId ++ " has no image chunks")), fs, tr0)
      | Option.some chunkId =>
        let tr1 := tr0 ++ [Ev.lockAcq, Ev.lockRel]
        match check_and_get_thumbnail_path cache fs dbName chunkId with
        | Except.error e => (Except.error e, fs, tr1)
        | Except.ok (thumbnailPath, ex) =>
          if ex then (Except.ok (pathToString thumbnailPath), fs, tr1)
          else
            let tr2 := tr1 ++ [Ev.awaitDb]
            match queryChunkContents db chunkId with
            | Except.error e => (Except.error e, fs, tr2)
            | Except.ok contents =>
              let tr3 := tr2 ++ [Ev.lockAcq, Ev.lockRel]
              match generateThumbnailCmd cache env.imgOps fs contents dbName chunkId with
              | (Except.error e, fs2) => (Except.error e, fs2, tr3)
              | (Except.ok _, fs2) => (Except.ok (pathToString thumbnailPath), fs2, tr3)

/-- `get_preview_url`: as `get_thumbnail_url` with the preview tier. -/
def get_preview_url (env : Env) (cache : Option CacheManager) (fs : FS)
    (pageId : Int) : Except AppError String × FS × List Ev :=
  match env.dbIdentifier with
  | Option.none => (Except.error AppError.notConnected, fs, [Ev.await])
  | Option.some dbName =>
    match env.pool with
    | Option.none => (Except.error AppError.notConnected, fs, [Ev.await, Ev.await])
    | Option.some db =>
      let tr0 := [Ev.await, Ev.await, Ev.awaitDb]
      match db.firstChunkId pageId with
      | Option.none =>
        (Except.error (AppError.notFound
          ("Page " ++ toString pageId ++ " has no image chunks")), fs, tr0)
      | Option.some chunkId =>
        let tr1 := tr0 ++ [Ev.lockAcq, Ev.lockRel]
        match check_and_get_preview_path cache fs dbName chunkId with
        | Except.error e => (Except.error e, fs, tr1)
        | Except.ok (previewPath, ex) =>
          if ex then (Except.ok (pathToString previewPath), fs, tr1)
          else
            let tr2 := tr1 ++ [Ev.awaitDb]
            match queryChunkContents db chunkId with
            | Except.error e => (Except.error e, fs, tr2)
            | Except.ok contents =>
              let tr3 := tr2 ++ [Ev.lockAcq, Ev.lockRel]
              match generatePreviewCmd cache env.imgOps fs contents dbName chunkId with
              | (Except.error e, fs2) => (Except.error e, fs2, tr3)
              | (Except.ok _, fs2) => (Except.ok (pathToString previewPath), fs2, tr3)

/-- Generation loop of `prefetch_document_thumbnails`: count the chunks
whose thumbnail generation succeeds. -/
def prefetchLoop (cache : Option CacheManager) (ops : ImgOps) (dbName : String) :
    List (Int × Bytes) → FS → Nat → FS × Nat
  | [], fs, g => (fs, g)
  | (chunkId, contents) :: rest, fs, g =>
    match generateThumbnailCmd cache ops fs contents dbName chunkId with
    | (Except.ok _, fs2) => prefetchLoop cache ops dbName rest fs2 (g + 1)
    | (Except.error _, fs2) => prefetchLoop cache ops dbName rest fs2 g

/-- `prefetch_document_thumbnails`: chunk ids in one metadata query,
partition by cache state (an erroring check counts as uncached), one
batch BYTEA query for the uncached set, generate each, return the count
of successful generations. -/
def prefetch_document_thumbnails (env : Env) (cache : Option CacheManager)
    (fs : FS) (documentId : Int) : Except AppError Nat × FS × List Ev :=
  match env.dbIdentifier with
  | Option.none => (Except.error AppError.notConnected, fs, [Ev.await])
  | Option.some dbName =>
    match env.pool with
    | Option.none => (Except.error AppError.notConnected, fs, [Ev.await, Ev.await])
    | Option.some db =>
      let rows := db.prefetchChunkIds documentId
      let uncached := rows.filter (fun chunkId =>
        if hasThumbnailCmd cache fs dbName chunkId = Except.ok true then false
        else true)
      let tr1 := [Ev.await, Ev.await, Ev.awaitDb] ++
        (rows.map (fun _ => [Ev.lockAcq, Ev.lockRel])).flatten
      if uncached.isEmpty then (Except.ok 0, fs, tr1)
      else
        let chunkRows := db.batchChunks uncached
        let result := prefetchLoop cache env.imgOps dbName chunkRows fs 0
        let tr3 := tr1 ++ [Ev.awaitDb] ++
          (chunkRows.map (fun _ => [Ev.lockAcq, Ev.lockRel])).flatten
        (Except.ok result.2, result.1, tr3)

/-- Lock discipline of a trace: scanning left to right, the mutex is
never acquired twice, never released while free, and no suspension event
occurs while it is held. -/
def wellLockedAux : List Ev → Bool → Bool
  | [], locked => !locked
  | e :: rest, locked =>
    match e with
    | Ev.await => !locked && wellLockedAux rest locked
    | Ev.awaitDb => !locked && wellLockedAux rest locked
    | Ev.awaitRender => !locked && wellLockedAux rest locked
    | Ev.lockAcq => !locked && wellLockedAux rest true
    | Ev.lockRel => locked && wellLockedAux rest false

def wellLocked (tr : List Ev) : Bool := wellLockedAux tr false

/-! ### Basic lemmas about the filesystem model -/

theorem length_of_mem_prefixesOf {q p : FsPath} (h : q ∈ prefixesOf p) :
    q.length ≤ p.length := by
  simp only [prefixesOf, List.mem_map, List.mem_range] at h
  obtain ⟨i, _, rfl⟩ := h
  simp [List.length_take]

theorem isUnder_append (d l : FsPath) : isUnder (d ++ l) d = true := by
  simp [isUnder, List.take_left]

/-- `find?` by key commutes with a filter that keeps every entry with
that key. -/
theorem find?_key_filter (l : List (FsPath × Bytes)) (p : FsPath)
    (q : FsPath × Bytes → Bool) (hq : ∀ b, q (p, b) = true) :
    (l.filter q).find? (fun e => e.1 == p) = l.find? (fun e => e.1 == p) := by
  induction l with
  | nil => rfl
  | cons e t ih =>
    by_cases he : e.1 = p
    · have hqe : q e = true := by
        obtain ⟨e1, e2⟩ := e
        simp only at he
        subst he
        exact hq e2
      simp [List.filter_cons, hqe, List.find?_cons, he]
    · have hne : (e.1 == p) = false := by simp [he]
      by_cases hqe : q e = true
      · simp [List.filter_cons, hqe, List.find?_cons, hne, ih]
      · simp only [Bool.not_eq_true] at hqe
        simp [List.filter_cons, hqe, List.find?_cons, hne, ih]

theorem fileContent_filter_other (fs : FS) (p : FsPath)
    (q : FsPath × Bytes → Bool) (hq : ∀ b, q (p, b) = true) :
    (FS.fileContent { fs with files := fs.files.filter q } p) = fs.fileContent p := by
  simp [FS.fileContent, find?_key_filter _ _ _ hq]

theorem fileExists_removeSubtree_of_under (fs : FS) (d p : FsPath)
    (h : isUnder p d = true) : (fs.removeSubtree d).fileExists p = false := by
  have hnone : (fs.files.filter (fun e => !(isUnder e.1 d))).find?
      (fun e => e.1 == p) = none := by
    rw [List.find?_eq_none]
    intro e he hbeq
    simp only [List.mem_filter] at he
    have hep : e.1 = p := by simpa using hbeq
    rw [hep, h] at he
    simp at he
  simp [FS.removeSubtree, FS.fileExists, hnone]

theorem fileContent_removeSubtree_other (fs : FS) (d p : FsPath)
    (h : isUnder p d = false) :
    (fs.removeSubtree d).fileContent p = fs.fileContent p := by
  unfold FS.removeSubtree
  exact fileContent_filter_other fs p _ (fun b => by simp [h])

theorem fileContent_createDirAll (fs : FS) (d p : FsPath) :
    (fs.createDirAll d).fileContent p = fs.fileContent p := rfl

theorem fileExists_eq_isSome_fileContent (fs : FS) (p : FsPath) :
    fs.fileExists p = (fs.fileContent p).isSome := by
  simp [FS.fileExists, FS.fileContent]

theorem pathExists_createDirAll_mono (fs : FS) (d p : FsPath)
    (h : fs.pathExists p = true) : (fs.createDirAll d).pathExists p = true := by
  simp only [FS.pathExists, FS.createDirAll, Bool.or_eq_true] at h ⊢
  rcases h with h | h
  · exact Or.inl h
  · right
    have h' : p ∈ fs.dirs := by simpa using h
    simpa using List.mem_append_right (prefixesOf d) h'

theorem pathExists_writeFile (fs : FS) (p : FsPath) (b : Bytes) :
    ((fs.writeFile p b).2).pathExists p = true := by
  unfold FS.writeFile
  by_cases h : p ∈ fs.failWrites <;>
    simp [h, FS.pathExists, FS.fileExists, List.find?]

theorem fileContent_writeFile_ok (fs : FS) (p : FsPath) (b : Bytes)
    (h : fs.failWrites.contains p = false) :
    (fs.writeFile p b).1 = Except.ok p ∧
    ((fs.writeFile p b).2).fileContent p = some b := by
  have h' : p ∉ fs.failWrites := by simpa using h
  unfold FS.writeFile
  simp [h', FS.fileContent, List.find?]

theorem fileContent_writeFile_other (fs : FS) (p q : FsPath) (b : Bytes)
    (h : q ≠ p) : ((fs.writeFile p b).2).fileContent q = fs.fileContent q := by
  have hq : ∀ c, (fun e : FsPath × Bytes => !(e.1 == p)) (q, c) = true := by
    simp [h]
  have hfilter := find?_key_filter fs.files q (fun e => !(e.1 == p)) hq
  have hpq : ((p : FsPath) == q) = false := by simp [Ne.symm h]
  unfold FS.writeFile
  by_cases hw : p ∈ fs.failWrites <;>
    simp [hw, FS.fileContent, List.find?, hpq, hfilter]

theorem failWrites_writeFile (fs : FS) (p : FsPath) (b : Bytes) :
    ((fs.writeFile p b).2).failWrites = fs.failWrites := by
  unfold FS.writeFile
  by_cases hw : p ∈ fs.failWrites <;> simp [hw]

theorem dirs_writeFile (fs : FS) (p : FsPath) (b : Bytes) :
    ((fs.writeFile p b).2).dirs = fs.dirs := by
  unfold FS.writeFile
  by_cases hw : p ∈ fs.failWrites <;> simp [hw]

theorem pathExists_createDirAll_of_long (fs : FS) (d p : FsPath)
    (hlen : d.length < p.length) (h : fs.pathExists p = false) :
    (fs.createDirAll d).pathExists p = false := by
  simp only [FS.pathExists, FS.createDirAll, Bool.or_eq_false_iff] at h ⊢
  refine ⟨h.1, ?_⟩
  have h2 : p ∉ fs.dirs := by simpa using h.2
  have : p ∉ prefixesOf d ++ fs.dirs := by
    intro hmem
    rcases List.mem_append.mp hmem with hm | hm
    · have := length_of_mem_prefixesOf hm
      omega
    · exact h2 hm
  simpa using this

theorem thumbnail_path_length (cm : CacheManager) (dbName : String) (chunkId : Int) :
    (cm.thumbnail_path dbName chunkId).length = cm.cacheDir.length + 3 := by
  simp [CacheManager.thumbnail_path]

theorem preview_path_length (cm : CacheManager) (dbName : String) (chunkId : Int) :
    (cm.preview_path dbName chunkId).length = cm.cacheDir.length + 3 := by
  simp [CacheManager.preview_path]

theorem original_path_length (cm : CacheManager) (dbName : String) (pageId : Int) :
    (cm.original_path dbName pageId).length = cm.cacheDir.length + 3 := by
  simp [CacheManager.original_path]

theorem filter_key_filter_ne (l : List (FsPath × Bytes)) (p : FsPath) :
    (l.filter (fun e => !(e.1 == p))).filter (fun e => e.1 == p) = [] := by
  induction l with
  | nil => rfl
  | cons e t ih =>
    by_cases he : e.1 = p
    · simp [List.filter_cons, he, ih]
    · have : (e.1 == p) = false := by simp [he]
      simp [List.filter_cons, this, ih]

/-- After a successful write, exactly one file entry carries the key. -/
theorem writeFile_unique_entry (fs : FS) (p : FsPath) (b : Bytes) :
    (((fs.writeFile p b).2).files.filter (fun e => e.1 == p)).length = 1 := by
  unfold FS.writeFile
  by_cases hw : p ∈ fs.failWrites <;>
    simp [hw, List.filter_cons, filter_key_filter_ne]

/-! ### Claim theorems: derivative generation (C3, C4, C10) -/

/-- Concrete image operations for witnesses: everything decodes. -/
def opsTest : ImgOps :=
  { decode := fun _ => Option.some 0,
    resize := fun i _ _ => i,
    encodeWebP := fun _ => [7] }

/-- Concrete image operations for witnesses: nothing decodes. -/
def opsReject : ImgOps :=
  { decode := fun _ => Option.none,
    resize := fun i _ _ => i,
    encodeWebP := fun _ => [7] }

def cmTest : CacheManager := { cacheDir := ["cache"] }

/-- A filesystem where the write at thumbnail key 7 of namespace `db`
fails. -/
def fsFailThumb : FS :=
  { files := [], dirs := [], failWrites := [["cache", "thumbnails", "db", "7.webp"]] }

/-- C3, counterexample: with no pre-existing file, decodable input bytes
and a save that fails (e.g. disk full during `save_with_format`, which
creates the file before streaming the encoding), the call errors yet a
(partial) file now exists at the target path, wrongly signalling a cache
hit.  The code writes directly to the target, with no temp-then-rename
step. -/
theorem generate_error_leaves_file_counterexample :
    (cmTest.generate_thumbnail_from_bytes opsTest fsFailThumb [5] "db" 7).1 =
      Except.error (AppError.io "write failed") ∧
    fsFailThumb.fileExists (cmTest.thumbnail_path "db" 7) = false ∧
    ((cmTest.generate_thumbnail_from_bytes opsTest fsFailThumb [5] "db" 7).2).fileExists
      (cmTest.thumbnail_path "db" 7) = true := by
  decide

/-- C3 (amended): derivative generation is all-or-nothing except when
the final save itself fails: whenever the write at the target path does
not fail, an erroring call (necessarily a decode error) leaves the file
table unchanged, so no new file appears at the target. -/
theorem generate_error_no_leftover_when_write_ok
    (cm : CacheManager) (ops : ImgOps) (fs : FS) (bytes : Bytes)
    (dbName : String) (chunkId : Int)
    (ht : fs.failWrites.contains (cm.thumbnail_path dbName chunkId) = false)
    (hp : fs.failWrites.contains (cm.preview_path dbName chunkId) = false) :
    (∀ e, (cm.generate_thumbnail_from_bytes ops fs bytes dbName chunkId).1 =
        Except.error e →
      ((cm.generate_thumbnail_from_bytes ops fs bytes dbName chunkId).2).files =
        fs.files) ∧
    (∀ e, (cm.generate_preview_from_bytes ops fs bytes dbName chunkId).1 =
        Except.error e →
      ((cm.generate_preview_from_bytes ops fs bytes dbName chunkId).2).files =
        fs.files) := by
  have ht' : cm.thumbnail_path dbName chunkId ∉ fs.failWrites := by simpa using ht
  have hp' : cm.preview_path dbName chunkId ∉ fs.failWrites := by simpa using hp
  constructor
  · intro e
    unfold CacheManager.generate_thumbnail_from_bytes
    by_cases hx : fs.pathExists (cm.thumbnail_path dbName chunkId) = true
    · simp [hx]
    · simp only [Bool.not_eq_true] at hx
      cases hd : ops.decode bytes with
      | none => simp [hx, hd, FS.createDirAll]
      | some img => simp [hx, hd, FS.writeFile, FS.createDirAll, ht']
  · intro e
    unfold CacheManager.generate_preview_from_bytes
    by_cases hx : fs.pathExists (cm.preview_path dbName chunkId) = true
    · simp [hx]
    · simp only [Bool.not_eq_true] at hx
      cases hd : ops.decode bytes with
      | none => simp [hx, hd, FS.createDirAll]
      | some img => simp [hx, hd, FS.writeFile, FS.createDirAll, hp']

/-- C3 amended, witness. -/
theorem generate_error_no_leftover_when_write_ok_witness :
    ((cmTest.generate_thumbnail_from_bytes opsReject
        { files := [], dirs := [], failWrites := [] } [5] "db" 7).2).files = [] := by
  have h := generate_error_no_leftover_when_write_ok cmTest opsReject
    { files := [], dirs := [], failWrites := [] } [5] "db" 7 (by decide) (by decide)
  exact h.1 (AppError.io "Failed to decode image") (by decide)

/-- C4: derivation is idempotent with first-write-wins semantics.  If the
target file exists, any call — with any image operations and any bytes —
returns the existing path and leaves the filesystem untouched (so nothing
is decoded or overwritten); and after a first successful generation, a
second call with arbitrary different input returns the same path, changes
nothing, and the single file at the key still holds the first call's
output. -/
theorem generate_idempotent_first_write_wins
    (cm : CacheManager) (fs : FS) (dbName : String) (chunkId : Int) :
    (∀ ops bytes, fs.pathExists (cm.thumbnail_path dbName chunkId) = true →
      cm.generate_thumbnail_from_bytes ops fs bytes dbName chunkId =
        (Except.ok (cm.thumbnail_path dbName chunkId), fs)) ∧
    (∀ ops bytes, fs.pathExists (cm.preview_path dbName chunkId) = true →
      cm.generate_preview_from_bytes ops fs bytes dbName chunkId =
        (Except.ok (cm.preview_path dbName chunkId), fs)) ∧
    (∀ ops1 bytes1 img,
      fs.pathExists (cm.thumbnail_path dbName chunkId) = false →
      ops1.decode bytes1 = some img →
      fs.failWrites.contains (cm.thumbnail_path dbName chunkId) = false →
      (cm.generate_thumbnail_from_bytes ops1 fs bytes1 dbName chunkId).1 =
        Except.ok (cm.thumbnail_path dbName chunkId) ∧
      ((cm.generate_thumbnail_from_bytes ops1 fs bytes1 dbName chunkId).2).fileContent
          (cm.thumbnail_path dbName chunkId) =
        some (ops1.encodeWebP (ops1.resize img 200 200)) ∧
      (((cm.generate_thumbnail_from_bytes ops1 fs bytes1 dbName chunkId).2).files.filter
          (fun e => e.1 == cm.thumbnail_path dbName chunkId)).length = 1 ∧
      ∀ ops2 bytes2,
        cm.generate_thumbnail_from_bytes ops2
            ((cm.generate_thumbnail_from_bytes ops1 fs bytes1 dbName chunkId).2)
            bytes2 dbName chunkId =
          (Except.ok (cm.thumbnail_path dbName chunkId),
            (cm.generate_thumbnail_from_bytes ops1 fs bytes1 dbName chunkId).2)) := by
  refine ⟨?_, ?_, ?_⟩
  · intro ops bytes hx
    unfold CacheManager.generate_thumbnail_from_bytes
    simp [hx]
  · intro ops bytes hx
    unfold CacheManager.generate_preview_from_bytes
    simp [hx]
  · intro ops1 bytes1 img hmiss hdec hwr
    have hwr' : cm.thumbnail_path dbName chunkId ∉
        (fs.createDirAll (cm.thumbnail_path dbName chunkId).dropLast).failWrites := by
      simpa [FS.createDirAll] using hwr
    have hgen : cm.generate_thumbnail_from_bytes ops1 fs bytes1 dbName chunkId =
        (fs.createDirAll (cm.thumbnail_path dbName chunkId).dropLast).writeFile
          (cm.thumbnail_path dbName chunkId)
          (ops1.encodeWebP (ops1.resize img 200 200)) := by
      unfold CacheManager.generate_thumbnail_from_bytes
      simp [hmiss, hdec]
    rw [hgen]
    set fs1 := fs.createDirAll (cm.thumbnail_path dbName chunkId).dropLast with hfs1
    have hok := fileContent_writeFile_ok fs1 (cm.thumbnail_path dbName chunkId)
      (ops1.encodeWebP (ops1.resize img 200 200)) (by simpa [hfs1, FS.createDirAll] using hwr)
    refine ⟨hok.1, hok.2, ?_, ?_⟩
    · exact writeFile_unique_entry fs1 _ _
    · intro ops2 bytes2
      have hex : ((fs1.writeFile (cm.thumbnail_path dbName chunkId)
          (ops1.encodeWebP (ops1.resize img 200 200))).2).pathExists
          (cm.thumbnail_path dbName chunkId) = true :=
        pathExists_writeFile fs1 _ _
      unfold CacheManager.generate_thumbnail_from_bytes
      simp [hex]

/-- C4, witness. -/
theorem generate_idempotent_first_write_wins_witness :
    cmTest.generate_thumbnail_from_bytes opsReject
        { files := [(["cache", "thumbnails", "db", "7.webp"], [9])], dirs := [],
          failWrites := [] } [5] "db" 7 =
      (Except.ok (cmTest.thumbnail_path "db" 7),
        { files := [(["cache", "thumbnails", "db", "7.webp"], [9])], dirs := [],
          failWrites := [] }) := by
  exact (generate_idempotent_first_write_wins cmTest
    { files := [(["cache", "thumbnails", "db", "7.webp"], [9])], dirs := [],
      failWrites := [] } "db" 7).1 opsReject [5] (by decide)

/-- C10: a decode failure on a cache miss returns a decode error, leaves
the file table untouched (the target key still reports a miss), and the
only filesystem effect is the creation of the namespace subdirectory
(with its ancestors) for the tier. -/
theorem generate_decode_failure_no_side_effect
    (cm : CacheManager) (ops : ImgOps) (fs : FS) (bytes : Bytes)
    (dbName : String) (chunkId : Int)
    (htm : fs.pathExists (cm.thumbnail_path dbName chunkId) = false)
    (hpm : fs.pathExists (cm.preview_path dbName chunkId) = false)
    (hdec : ops.decode bytes = none) :
    ((cm.generate_thumbnail_from_bytes ops fs bytes dbName chunkId).1 =
        Except.error (AppError.io "Failed to decode image") ∧
      ((cm.generate_thumbnail_from_bytes ops fs bytes dbName chunkId).2).files =
        fs.files ∧
      ((cm.generate_thumbnail_from_bytes ops fs bytes dbName chunkId).2).pathExists
        (cm.thumbnail_path dbName chunkId) = false ∧
      ∀ d, d ∈ ((cm.generate_thumbnail_from_bytes ops fs bytes dbName chunkId).2).dirs ↔
        (d ∈ prefixesOf (cm.thumbnail_path dbName chunkId).dropLast ∨ d ∈ fs.dirs)) ∧
    ((cm.generate_preview_from_bytes ops fs bytes dbName chunkId).1 =
        Except.error (AppError.io "Failed to decode image") ∧
      ((cm.generate_preview_from_bytes ops fs bytes dbName chunkId).2).files =
        fs.files ∧
      ((cm.generate_preview_from_bytes ops fs bytes dbName chunkId).2).pathExists
        (cm.preview_path dbName chunkId) = false ∧
      ∀ d, d ∈ ((cm.generate_preview_from_bytes ops fs bytes dbName chunkId).2).dirs ↔
        (d ∈ prefixesOf (cm.preview_path dbName chunkId).dropLast ∨ d ∈ fs.dirs)) := by
  have hlt : (cm.thumbnail_path dbName chunkId).dropLast.length <
      (cm.thumbnail_path dbName chunkId).length := by
    rw [List.length_dropLast, thumbnail_path_length]
    omega
  have hlp : (cm.preview_path dbName chunkId).dropLast.length <
      (cm.preview_path dbName chunkId).length := by
    rw [List.length_dropLast, preview_path_length]
    omega
  have hgt : cm.generate_thumbnail_from_bytes ops fs bytes dbName chunkId =
      (Except.error (AppError.io "Failed to decode image"),
        fs.createDirAll (cm.thumbnail_path dbName chunkId).dropLast) := by
    unfold CacheManager.generate_thumbnail_from_bytes
    simp [htm, hdec]
  have hgp : cm.generate_preview_from_bytes ops fs bytes dbName chunkId =
      (Except.error (AppError.io "Failed to decode image"),
        fs.createDirAll (cm.preview_path dbName chunkId).dropLast) := by
    unfold CacheManager.generate_preview_from_bytes
    simp [hpm, hdec]
  rw [hgt, hgp]
  refine ⟨⟨rfl, rfl, ?_, ?_⟩, rfl, rfl, ?_, ?_⟩
  · exact pathExists_createDirAll_of_long fs _ _ hlt htm
  · intro d
    simp [FS.createDirAll]
  · exact pathExists_createDirAll_of_long fs _ _ hlp hpm
  · intro d
    simp [FS.createDirAll]

/-- C10, witness. -/
theorem generate_decode_failure_no_side_effect_witness :
    ((cmTest.generate_thumbnail_from_bytes opsReject
        { files := [], dirs := [], failWrites := [] } [5] "db" 7).2).pathExists
      (cmTest.thumbnail_path "db" 7) = false := by
  exact ((generate_decode_failure_no_side_effect cmTest opsReject
    { files := [], dirs := [], failWrites := [] } [5] "db" 7
    (by decide) (by decide) (by decide)).1).2.2.1

/-! ### Subtree geometry of cache paths -/

theorem take_two_of_three (root : FsPath) (x y z : String) :
    (root ++ [x, y, z]).take (root.length + 2) = root ++ [x, y] := by
  have h1 : root ++ [x, y, z] = (root ++ [x, y]) ++ [z] := by simp
  have h2 : root.length + 2 = (root ++ [x, y]).length := by simp
  rw [h1, h2, List.take_left]

theorem take_one_of_two (root : FsPath) (x y : String) :
    (root ++ [x, y]).take (root.length + 1) = root ++ [x] := by
  have h1 : root ++ [x, y] = (root ++ [x]) ++ [y] := by simp
  have h2 : root.length + 1 = (root ++ [x]).length := by simp
  rw [h1, h2, List.take_left]

theorem isUnder_three_two_same (root : FsPath) (x y z : String) :
    isUnder (root ++ [x, y, z]) (root ++ [x, y]) = true := by
  have h1 : root ++ [x, y, z] = (root ++ [x, y]) ++ [z] := by simp
  rw [h1]
  exact isUnder_append _ _

theorem isUnder_three_two_ne (root : FsPath) (x y z x' y' : String)
    (h : x ≠ x' ∨ y ≠ y') :
    isUnder (root ++ [x, y, z]) (root ++ [x', y']) = false := by
  have hlen : (root ++ [x', y']).length = root.length + 2 := by simp
  rw [isUnder, hlen, take_two_of_three]
  apply beq_eq_false_iff_ne.mpr
  intro heq
  have h2 : ([x, y] : List String) = [x', y'] := List.append_cancel_left heq
  rcases h with h | h <;> · injection h2 with ha hb; injection hb; simp_all

theorem isUnder_two_two_ne (root : FsPath) (x y x' y' : String) (h : x ≠ x') :
    isUnder (root ++ [x, y]) (root ++ [x', y']) = false := by
  have hlen : (root ++ [x', y']).length = root.length + 2 := by simp
  have hfull : (root ++ [x, y]).take (root.length + 2) = root ++ [x, y] := by
    have : root.length + 2 = (root ++ [x, y]).length := by simp
    rw [this, List.take_length]
  rw [isUnder, hlen, hfull]
  apply beq_eq_false_iff_ne.mpr
  intro heq
  have h2 : ([x, y] : List String) = [x', y'] := List.append_cancel_left heq
  injection h2 with ha _
  exact h ha

theorem isUnder_three_one_same (root : FsPath) (x y z : String) :
    isUnder (root ++ [x, y, z]) (root ++ [x]) = true := by
  have h1 : root ++ [x, y, z] = (root ++ [x]) ++ [y, z] := by simp
  rw [h1]
  exact isUnder_append _ _

theorem isUnder_three_one_ne (root : FsPath) (x y z x' : String) (h : x ≠ x') :
    isUnder (root ++ [x, y, z]) (root ++ [x']) = false := by
  have hlen : (root ++ [x']).length = root.length + 1 := by simp
  have htake : (root ++ [x, y, z]).take (root.length + 1) = root ++ [x] := by
    have h1 : root ++ [x, y, z] = (root ++ [x]) ++ [y, z] := by simp
    have h2 : root.length + 1 = (root ++ [x]).length := by simp
    rw [h1, h2, List.take_left]
  rw [isUnder, hlen, htake]
  apply beq_eq_false_iff_ne.mpr
  intro heq
  have h2 : ([x] : List String) = [x'] := List.append_cancel_left heq
  injection h2 with ha _
  exact h ha

theorem isUnder_two_one_ne (root : FsPath) (x y x' : String) (h : x ≠ x') :
    isUnder (root ++ [x, y]) (root ++ [x']) = false := by
  have hlen : (root ++ [x']).length = root.length + 1 := by simp
  rw [isUnder, hlen, take_one_of_two]
  apply beq_eq_false_iff_ne.mpr
  intro heq
  have h2 : ([x] : List String) = [x'] := List.append_cancel_left heq
  injection h2 with ha _
  exact h ha

theorem fileExists_filter_false (fs : FS) (q : FsPath)
    (pred : FsPath × Bytes → Bool) (h : fs.fileExists q = false) :
    (FS.fileExists { fs with files := fs.files.filter pred } q) = false := by
  have hnone : fs.files.find? (fun e => e.1 == q) = none := by
    cases hf : fs.files.find? (fun e => e.1 == q) with
    | none => rfl
    | some e => simp [FS.fileExists, hf] at h
  have hall := List.find?_eq_none.mp hnone
  have hn2 : (fs.files.filter pred).find? (fun e => e.1 == q) = none := by
    rw [List.find?_eq_none]
    intro x hx
    exact hall x (List.mem_of_mem_filter hx)
  simp [FS.fileExists, hn2]

theorem fileExists_removeSubtree_false (fs : FS) (d q : FsPath)
    (h : fs.fileExists q = false) : (fs.removeSubtree d).fileExists q = false :=
  fileExists_filter_false fs q _ h

theorem fileExists_createDirAll (fs : FS) (d q : FsPath) :
    (fs.createDirAll d).fileExists q = fs.fileExists q := rfl

theorem pathExists_removeSubtree_other (fs : FS) (d p : FsPath)
    (h : isUnder p d = false) :
    (fs.removeSubtree d).pathExists p = fs.pathExists p := by
  have hfil := find?_key_filter fs.files p (fun e => !(isUnder e.1 d))
    (fun b => by simp [h])
  have hdirs : (fs.dirs.filter (fun q => !(isUnder q d))).contains p =
      fs.dirs.contains p := by
    by_cases hp : p ∈ fs.dirs
    · have : p ∈ fs.dirs.filter (fun q => !(isUnder q d)) :=
        List.mem_filter.mpr ⟨hp, by simp [h]⟩
      simp [hp, this]
    · have : p ∉ fs.dirs.filter (fun q => !(isUnder q d)) := by
        intro hc
        exact hp (List.mem_of_mem_filter hc)
      simp [hp, this]
  simp [FS.removeSubtree, FS.pathExists, FS.fileExists, hfil, hdirs, h]

/-! ### Claim theorems: namespace clearing (C6) and full clear (C7) -/

/-- A cache state holding one original-tier entry for namespace `A`,
with the standard directory skeleton present. -/
def fsOrig : FS :=
  { files := [(["cache", "originals", "A", "1.png"], [7])],
    dirs := [["cache"], ["cache", "thumbnails"], ["cache", "previews"],
      ["cache", "originals"], ["cache", "originals", "A"],
      ["cache", "thumbnails", "A"], ["cache", "previews", "A"]],
    failWrites := [] }

/-- C6, counterexample: an original-tier cache entry stored under
namespace `A` survives `clear_db_cache(A)`, so clearing a namespace does
not remove every entry stored under it — only the thumbnail and preview
tiers are cleared. -/
theorem clear_db_cache_keeps_original_counterexample :
    fsOrig.fileExists (cmTest.original_path "A" 1) = true ∧
    ((cmTest.clear_db_cache fsOrig "A").2).fileExists (cmTest.original_path "A" 1) =
      true := by
  decide

/-- C6 (amended): a namespace clear is isolated (entries of another
namespace, in all three tiers, are unaffected), a successful clear
removes the thumbnail and preview entries of the cleared namespace
(original-tier entries are untouched), and clearing a namespace whose
subdirectories are absent is a no-op that returns `Ok` — no removal is
attempted, so no removal error can arise in that case. -/
theorem clear_db_cache_isolation
    (cm : CacheManager) (fs : FS) (A : String) :
    (∀ B, B ≠ A → ∀ chunkId pageId,
      ((cm.clear_db_cache fs B).2).fileContent (cm.thumbnail_path A chunkId) =
        fs.fileContent (cm.thumbnail_path A chunkId) ∧
      ((cm.clear_db_cache fs B).2).fileContent (cm.preview_path A chunkId) =
        fs.fileContent (cm.preview_path A chunkId) ∧
      ((cm.clear_db_cache fs B).2).fileContent (cm.original_path A pageId) =
        fs.fileContent (cm.original_path A pageId)) ∧
    (∀ chunkId,
      (fs.pathExists (cm.cacheDir ++ ["thumbnails", A]) = true →
        ((cm.clear_db_cache fs A).2).fileExists (cm.thumbnail_path A chunkId) =
          false) ∧
      (fs.pathExists (cm.cacheDir ++ ["previews", A]) = true →
        ((cm.clear_db_cache fs A).2).fileExists (cm.preview_path A chunkId) =
          false)) ∧
    (fs.pathExists (cm.cacheDir ++ ["thumbnails", A]) = false →
      fs.pathExists (cm.cacheDir ++ ["previews", A]) = false →
      cm.clear_db_cache fs A = (Except.ok (), fs)) := by
  have hstep : ∀ (g : FS) (sub q : FsPath), isUnder q sub = false →
      (FS.fileContent (if g.pathExists sub = true then g.removeSubtree sub else g) q) =
        g.fileContent q := by
    intro g sub q h
    split
    · exact fileContent_removeSubtree_other g sub q h
    · rfl
  have hstep2 : ∀ (g : FS) (sub q : FsPath), g.fileExists q = false →
      (FS.fileExists (if g.pathExists sub = true then g.removeSubtree sub else g) q) =
        false := by
    intro g sub q h
    split
    · exact fileExists_removeSubtree_false _ _ _ h
    · exact h
  have hstep3 : ∀ (g : FS) (sub p : FsPath), isUnder p sub = false →
      (FS.pathExists (if g.pathExists sub = true then g.removeSubtree sub else g) p) =
        g.pathExists p := by
    intro g sub p h
    split
    · exact pathExists_removeSubtree_other _ _ _ h
    · rfl
  have htp : ("thumbnails" : String) ≠ "previews" := by decide
  have hpt : ("previews" : String) ≠ "thumbnails" := by decide
  have hot : ("originals" : String) ≠ "thumbnails" := by decide
  have hop : ("originals" : String) ≠ "previews" := by decide
  refine ⟨?_, ?_, ?_⟩
  · intro B hBA chunkId pageId
    have hAB : A ≠ B := fun hc => hBA hc.symm
    have h1 : isUnder (cm.thumbnail_path A chunkId)
        (cm.cacheDir ++ ["thumbnails", B]) = false := by
      simpa [CacheManager.thumbnail_path] using
        isUnder_three_two_ne cm.cacheDir "thumbnails" A (toString chunkId ++ ".webp")
          "thumbnails" B (Or.inr hAB)
    have h2 : isUnder (cm.thumbnail_path A chunkId)
        (cm.cacheDir ++ ["previews", B]) = false := by
      simpa [CacheManager.thumbnail_path] using
        isUnder_three_two_ne cm.cacheDir "thumbnails" A (toString chunkId ++ ".webp")
          "previews" B (Or.inl htp)
    have h3 : isUnder (cm.preview_path A chunkId)
        (cm.cacheDir ++ ["thumbnails", B]) = false := by
      simpa [CacheManager.preview_path] using
        isUnder_three_two_ne cm.cacheDir "previews" A (toString chunkId ++ ".webp")
          "thumbnails" B (Or.inl hpt)
    have h4 : isUnder (cm.preview_path A chunkId)
        (cm.cacheDir ++ ["previews", B]) = false := by
      simpa [CacheManager.preview_path] using
        isUnder_three_two_ne cm.cacheDir "previews" A (toString chunkId ++ ".webp")
          "previews" B (Or.inr hAB)
    have h5 : isUnder (cm.original_path A pageId)
        (cm.cacheDir ++ ["thumbnails", B]) = false := by
      simpa [CacheManager.original_path] using
        isUnder_three_two_ne cm.cacheDir "originals" A (toString pageId ++ ".png")
          "thumbnails" B (Or.inl hot)
    have h6 : isUnder (cm.original_path A pageId)
        (cm.cacheDir ++ ["previews", B]) = false := by
      simpa [CacheManager.original_path] using
        isUnder_three_two_ne cm.cacheDir "originals" A (toString pageId ++ ".png")
          "previews" B (Or.inl hop)
    refine ⟨?_, ?_, ?_⟩
    · show FS.fileContent _ _ = _
      rw [CacheManager.clear_db_cache]
      simp only
      rw [hstep _ _ _ h2, hstep _ _ _ h1]
    · show FS.fileContent _ _ = _
      rw [CacheManager.clear_db_cache]
      simp only
      rw [hstep _ _ _ h4, hstep _ _ _ h3]
    · show FS.fileContent _ _ = _
      rw [CacheManager.clear_db_cache]
      simp only
      rw [hstep _ _ _ h6, hstep _ _ _ h5]
  · intro chunkId
    have hu_t : isUnder (cm.thumbnail_path A chunkId)
        (cm.cacheDir ++ ["thumbnails", A]) = true := by
      simpa [CacheManager.thumbnail_path] using
        isUnder_three_two_same cm.cacheDir "thumbnails" A (toString chunkId ++ ".webp")
    have hu_p : isUnder (cm.preview_path A chunkId)
        (cm.cacheDir ++ ["previews", A]) = true := by
      simpa [CacheManager.preview_path] using
        isUnder_three_two_same cm.cacheDir "previews" A (toString chunkId ++ ".webp")
    constructor
    · intro hg
      rw [CacheManager.clear_db_cache]
      simp only [hg, if_true]
      exact hstep2 _ _ _ (fileExists_removeSubtree_of_under _ _ _ hu_t)
    · intro hg
      rw [CacheManager.clear_db_cache]
      simp only
      have hcond : (FS.pathExists
          (if fs.pathExists (cm.cacheDir ++ ["thumbnails", A]) = true then
            fs.removeSubtree (cm.cacheDir ++ ["thumbnails", A]) else fs)
          (cm.cacheDir ++ ["previews", A])) = true := by
        rw [hstep3 _ _ _ (isUnder_two_two_ne cm.cacheDir "previews" A "thumbnails" A hpt)]
        exact hg
      rw [hcond]
      simp only [if_true]
      exact fileExists_removeSubtree_of_under _ _ _ hu_p
  · intro hg1 hg2
    rw [CacheManager.clear_db_cache]
    simp [hg1, hg2]

/-- C6 amended, witness. -/
theorem clear_db_cache_isolation_witness :
    ((cmTest.clear_db_cache fsOrig "B").2).fileContent
        (cmTest.thumbnail_path "A" 3) =
      fsOrig.fileContent (cmTest.thumbnail_path "A" 3) ∧
    ((cmTest.clear_db_cache fsOrig "A").2).fileExists
        (cmTest.thumbnail_path "A" 3) = false := by
  constructor
  · exact ((clear_db_cache_isolation cmTest fsOrig "A").1 "B" (by decide) 3 1).1
  · exact ((clear_db_cache_isolation cmTest fsOrig "A").2.1 3).1 (by decide)

theorem isUnder_one_one_ne (root : FsPath) (x x' : String) (h : x ≠ x') :
    isUnder (root ++ [x]) (root ++ [x']) = false := by
  have hlen : (root ++ [x']).length = root.length + 1 := by simp
  have hfull : (root ++ [x]).take (root.length + 1) = root ++ [x] := by
    have : root.length + 1 = (root ++ [x]).length := by simp
    rw [this, List.take_length]
  rw [isUnder, hlen, hfull]
  apply beq_eq_false_iff_ne.mpr
  intro heq
  have h2 : ([x] : List String) = [x'] := List.append_cancel_left heq
  injection h2 with ha _
  exact h ha

theorem filter_filter_combined {α : Type} (l : List α) (p q : α → Bool) :
    (l.filter p).filter q = l.filter (fun a => p a && q a) := by
  induction l with
  | nil => rfl
  | cons e t ih =>
    by_cases hp : p e = true
    · by_cases hq : q e = true
      · simp [List.filter_cons, hp, hq, ih]
      · simp only [Bool.not_eq_true] at hq
        simp [List.filter_cons, hp, hq, ih]
    · simp only [Bool.not_eq_true] at hp
      simp [List.filter_cons, hp, ih]

theorem mem_prefixesOf_append_single (root : FsPath) (x : String) (h : root ≠ []) :
    root ∈ prefixesOf (root ++ [x]) := by
  have hpos : 0 < root.length := List.length_pos.mpr h
  simp only [prefixesOf, List.mem_map, List.mem_range]
  refine ⟨root.length - 1, by simp; omega, ?_⟩
  have h1 : root.length - 1 + 1 = root.length := by omega
  rw [h1, List.take_left]

theorem pathExists_createDirAll_of_mem (fs : FS) (d p : FsPath)
    (h : p ∈ prefixesOf d) : (fs.createDirAll d).pathExists p = true := by
  simp only [FS.pathExists, FS.createDirAll, Bool.or_eq_true]
  right
  simpa using List.mem_append_left fs.dirs h

/-- The cache files outside the thumbnail and preview subtrees (e.g. the
original tier), which survive a full clear. -/
def residual_files (cm : CacheManager) (fs : FS) : List (FsPath × Bytes) :=
  fs.files.filter (fun e => isUnder e.1 cm.cacheDir &&
    !(isUnder e.1 (cm.cacheDir ++ ["thumbnails"])) &&
    !(isUnder e.1 (cm.cacheDir ++ ["previews"])))

/-- C7, counterexample: after a successful full clear, an original-tier
entry written by an earlier resolution still exists and the reported
cache size is 1, not 0 — `clear_cache` removes only `thumbnails/` and
`previews/` while `get_cache_size` sums the whole root, originals
included. -/
theorem clear_cache_keeps_originals_counterexample :
    (cmTest.clear_cache fsOrig).1 = Except.ok () ∧
    fsOrig.fileExists (cmTest.original_path "A" 1) = true ∧
    ((cmTest.clear_cache fsOrig).2).fileExists (cmTest.original_path "A" 1) = true ∧
    cmTest.get_cache_size ((cmTest.clear_cache fsOrig).2) = 1 := by
  decide

/-- C7 (amended): after a successful `clear_cache`, every thumbnail-tier
and preview-tier derivative path reports non-existent, and
`get_cache_size` returns exactly the total size of the files outside
those two subtrees (the surviving original-tier entries); in particular
it returns 0 only when no such residual file exists. -/
theorem clear_cache_resets_thumbnails_previews
    (cm : CacheManager) (fs : FS)
    (ht : fs.pathExists (cm.cacheDir ++ ["thumbnails"]) = true)
    (hp : fs.pathExists (cm.cacheDir ++ ["previews"]) = true)
    (hroot : cm.cacheDir ≠ []) :
    (∀ ns chunkId,
      ((cm.clear_cache fs).2).fileExists (cm.thumbnail_path ns chunkId) = false ∧
      ((cm.clear_cache fs).2).fileExists (cm.preview_path ns chunkId) = false) ∧
    cm.get_cache_size ((cm.clear_cache fs).2) =
      ((residual_files cm fs).map (fun e => e.2.length)).sum ∧
    (cm.clear_cache fs).1 = Except.ok () := by
  have hpt : ("previews" : String) ≠ "thumbnails" := by decide
  have hg2 : (FS.pathExists ((fs.removeSubtree
      (cm.cacheDir ++ ["thumbnails"])).createDirAll (cm.cacheDir ++ ["thumbnails"]))
      (cm.cacheDir ++ ["previews"])) = true := by
    apply pathExists_createDirAll_mono
    rw [pathExists_removeSubtree_other _ _ _
      (isUnder_one_one_ne cm.cacheDir "previews" "thumbnails" hpt)]
    exact hp
  have hfs2 : (cm.clear_cache fs).2 =
      ((((fs.removeSubtree (cm.cacheDir ++ ["thumbnails"])).createDirAll
        (cm.cacheDir ++ ["thumbnails"])).removeSubtree
        (cm.cacheDir ++ ["previews"])).createDirAll (cm.cacheDir ++ ["previews"])) := by
    rw [CacheManager.clear_cache]
    simp only [ht, if_true, hg2]
  refine ⟨?_, ?_, rfl⟩
  · intro ns chunkId
    have hu_t : isUnder (cm.thumbnail_path ns chunkId)
        (cm.cacheDir ++ ["thumbnails"]) = true := by
      simpa [CacheManager.thumbnail_path] using
        isUnder_three_one_same cm.cacheDir "thumbnails" ns (toString chunkId ++ ".webp")
    have hu_p : isUnder (cm.preview_path ns chunkId)
        (cm.cacheDir ++ ["previews"]) = true := by
      simpa [CacheManager.preview_path] using
        isUnder_three_one_same cm.cacheDir "previews" ns (toString chunkId ++ ".webp")
    rw [hfs2]
    constructor
    · rw [fileExists_createDirAll]
      apply fileExists_removeSubtree_false
      rw [fileExists_createDirAll]
      exact fileExists_removeSubtree_of_under _ _ _ hu_t
    · rw [fileExists_createDirAll]
      exact fileExists_removeSubtree_of_under _ _ _ hu_p
  · rw [hfs2]
    have hroot_mem : cm.cacheDir ∈ prefixesOf (cm.cacheDir ++ ["previews"]) :=
      mem_prefixesOf_append_single cm.cacheDir "previews" hroot
    have hex : (FS.pathExists ((((fs.removeSubtree
        (cm.cacheDir ++ ["thumbnails"])).createDirAll
        (cm.cacheDir ++ ["thumbnails"])).removeSubtree
        (cm.cacheDir ++ ["previews"])).createDirAll (cm.cacheDir ++ ["previews"]))
        cm.cacheDir) = true :=
      pathExists_createDirAll_of_mem _ _ _ hroot_mem
    rw [CacheManager.get_cache_size, hex]
    simp only [if_true, FS.treeSize, FS.createDirAll, FS.removeSubtree]
    rw [filter_filter_combined, filter_filter_combined]
    rw [residual_files]
    have hfil : (fs.files.filter (fun a =>
        !(isUnder a.1 (cm.cacheDir ++ ["thumbnails"])) &&
          (!(isUnder a.1 (cm.cacheDir ++ ["previews"])) && isUnder a.1 cm.cacheDir))) =
        fs.files.filter (fun e => isUnder e.1 cm.cacheDir &&
          !(isUnder e.1 (cm.cacheDir ++ ["thumbnails"])) &&
          !(isUnder e.1 (cm.cacheDir ++ ["previews"]))) := by
      apply List.filter_congr
      intro e _
      cases h1 : isUnder e.1 (cm.cacheDir ++ ["thumbnails"]) <;>
        cases h2 : isUnder e.1 (cm.cacheDir ++ ["previews"]) <;>
          cases h3 : isUnder e.1 cm.cacheDir <;> rfl
    rw [hfil]

/-- C7 amended, witness. -/
theorem clear_cache_resets_thumbnails_previews_witness :
    ((cmTest.clear_cache fsOrig).2).fileExists (cmTest.thumbnail_path "A" 3) =
      false ∧
    cmTest.get_cache_size ((cmTest.clear_cache fsOrig).2) =
      ((residual_files cmTest fsOrig).map (fun e => e.2.length)).sum := by
  have h := clear_cache_resets_thumbnails_previews cmTest fsOrig
    (by decide) (by decide) (by decide)
  exact ⟨(h.1 "A" 3).1, h.2.1⟩

/-! ### Claim theorem: source classification (C5) -/

/-- The classification contract as the specification words it: direct
image exactly when the hint is a non-empty string naming an existing
path whose extension, lowercased ASCII-wise, is png/jpg/jpeg/webp;
renderable document exactly when that extension is pdf; unavailable in
every other case. -/
def classify_source_spec (fs : FS) (hint : Option String) : SourceType :=
  match hint with
  | Option.none => SourceType.none
  | Option.some s =>
    let p := parsePath s
    let lext := (pathExtension p).map asciiLower
    if s ≠ "" ∧ fs.pathExists p = true ∧
        (lext = some "png" ∨ lext = some "jpg" ∨ lext = some "jpeg" ∨
          lext = some "webp") then
      SourceType.image p
    else if s ≠ "" ∧ fs.pathExists p = true ∧ lext = some "pdf" then
      SourceType.pdf p
    else
      SourceType.none

/-- C5: `classify_source` agrees with the specification's three-way
contract on every hint and every filesystem state.  Both sides are pure
functions of exactly the hint and the current filesystem, so the result
is independent of call order and prior calls. -/
theorem classify_source_correct (fs : FS) (hint : Option String) :
    classify_source fs hint = classify_source_spec fs hint := by
  cases hint with
  | none => rfl
  | some s =>
    by_cases hs : s = ""
    · subst hs
      have hie : ("" : String).isEmpty = true := rfl
      simp [classify_source, classify_source_spec, hie]
    · have hne : s.isEmpty = false := by
        cases hie : s.isEmpty
        · rfl
        · exact absurd ((String.isEmpty_iff s).mp hie) hs
      by_cases hex : fs.pathExists (parsePath s) = true
      · cases hlex : (pathExtension (parsePath s)).map asciiLower with
        | none =>
          simp [classify_source, classify_source_spec, hs, hne, hex, hlex]
        | some e =>
          by_cases himg : e = "png" ∨ e = "jpg" ∨ e = "jpeg" ∨ e = "webp"
          · simp [classify_source, classify_source_spec, hs, hne, hex, hlex, himg]
          · by_cases hpdf : e = "pdf"
            · subst hpdf
              simp [classify_source, classify_source_spec, hs, hne, hex, hlex, himg]
            · simp [classify_source, classify_source_spec, hs, hne, hex, hlex,
                himg, hpdf]
      · have hex' : fs.pathExists (parsePath s) = false := by
          simpa using hex
        simp [classify_source, classify_source_spec, hs, hne, hex']

/-! ### Claim theorems: resolution with an unavailable store (C2) -/

def fsEmpty : FS := { files := [], dirs := [], failWrites := [] }

def dbC2 : Db :=
  { pages := [
      { id := 1, documentId := 1, pageNum := 1,
        sourcePath := Option.none, imageContents := Option.some [9] }],
    chunks := [{ id := 10, parentPage := 1, contents := [9] }] }

def envC2 : Env :=
  { dbIdentifier := Option.some "db", pool := Option.some dbC2,
    render := fun _ _ => Option.none, imgOps := opsTest }

/-- C2, counterexample: with the cache store uninitialized (`None`), a
page whose source hint is absent but whose binary column is populated
fails with a cache error in all three resolution commands — resolution
does not fall back to the direct fetch. -/
theorem cache_none_resolution_fails_counterexample :
    (get_page_image_url envC2 Option.none fsEmpty 1).1 =
      Except.error (AppError.cache "Cache manager not initialized") ∧
    (get_thumbnail_url envC2 Option.none fsEmpty 1).1 =
      Except.error (AppError.cache "Cache manager not initialized") ∧
    (get_preview_url envC2 Option.none fsEmpty 1).1 =
      Except.error (AppError.cache "Cache manager not initialized") := by
  exact ⟨rfl, rfl, rfl⟩

/-- C2 (amended): when the managed cache state is `None`,
`get_page_image_url` succeeds only in the direct-image branch (returning
the source path without touching the cache); in every other branch it
fails with the cache error, and `get_thumbnail_url` / `get_preview_url`
fail with the cache error whenever the page has a chunk. -/
theorem cache_none_resolution_behaviour
    (env : Env) (fs : FS) (pageId : Int) (dbName : String) (db : Db)
    (info : Int × Option String)
    (h1 : env.dbIdentifier = Option.some dbName)
    (h2 : env.pool = Option.some db)
    (h3 : query_page_source_info db pageId = Except.ok info) :
    (∀ p, classify_source fs info.2 = SourceType.image p →
      get_page_image_url env Option.none fs pageId =
        (Except.ok (pathToString p), fs, [Ev.await, Ev.await, Ev.awaitDb])) ∧
    ((∀ p, classify_source fs info.2 ≠ SourceType.image p) →
      (get_page_image_url env Option.none fs pageId).1 =
        Except.error (AppError.cache "Cache manager not initialized")) ∧
    (∀ chunkId, db.firstChunkId pageId = Option.some chunkId →
      (get_thumbnail_url env Option.none fs pageId).1 =
        Except.error (AppError.cache "Cache manager not initialized") ∧
      (get_preview_url env Option.none fs pageId).1 =
        Except.error (AppError.cache "Cache manager not initialized")) := by
  refine ⟨?_, ?_, ?_⟩
  · intro p hp
    simp [get_page_image_url, h1, h2, h3, hp]
  · intro hnp
    cases hs : classify_source fs info.2 with
    | image p => exact absurd hs (hnp p)
    | pdf p =>
      simp [get_page_image_url, h1, h2, h3, hs, check_and_get_original_path]
    | none =>
      simp [get_page_image_url, h1, h2, h3, hs, check_and_get_original_path]
  · intro chunkId hc
    constructor
    · simp [get_thumbnail_url, h1, h2, hc, check_and_get_thumbnail_path]
    · simp [get_preview_url, h1, h2, hc, check_and_get_preview_path]

/-- C2 amended, witness. -/
theorem cache_none_resolution_behaviour_witness :
    (get_page_image_url envC2 Option.none fsEmpty 1).1 =
      Except.error (AppError.cache "Cache manager not initialized") ∧
    (get_thumbnail_url envC2 Option.none fsEmpty 1).1 =
      Except.error (AppError.cache "Cache manager not initialized") := by
  have h := cache_none_resolution_behaviour envC2 fsEmpty 1 "db" dbC2
    (1, Option.none) rfl rfl (by decide)
  refine ⟨h.2.1 (fun p hc => SourceType.noConfusion hc), ?_⟩
  exact (h.2.2 10 (by decide)).1

/-! ### Claim theorem: lock discipline (C9) -/

@[simp]
theorem wla_nil : wellLockedAux [] false = true := rfl

@[simp]
theorem wla_await (t : List Ev) :
    wellLockedAux (Ev.await :: t) false = wellLockedAux t false := by
  simp [wellLockedAux]

@[simp]
theorem wla_awaitDb (t : List Ev) :
    wellLockedAux (Ev.awaitDb :: t) false = wellLockedAux t false := by
  simp [wellLockedAux]

@[simp]
theorem wla_awaitRender (t : List Ev) :
    wellLockedAux (Ev.awaitRender :: t) false = wellLockedAux t false := by
  simp [wellLockedAux]

@[simp]
theorem wla_acq_rel (t : List Ev) :
    wellLockedAux (Ev.lockAcq :: Ev.lockRel :: t) false = wellLockedAux t false := by
  simp [wellLockedAux]

@[simp]
theorem wla_flatten_pairs {α : Type} (rows : List α) (t : List Ev) :
    wellLockedAux (((rows.map (fun _ => [Ev.lockAcq, Ev.lockRel])).flatten) ++ t)
      false = wellLockedAux t false := by
  induction rows with
  | nil => simp
  | cons r rest ih => simpa using ih

@[simp]
theorem wla_flatten_pairs_nil {α : Type} (rows : List α) :
    wellLockedAux ((rows.map (fun _ => [Ev.lockAcq, Ev.lockRel])).flatten) false =
      true := by
  have h := wla_flatten_pairs rows []
  simpa using h

@[simp]
theorem wla_replicate_pairs (n : Nat) (t : List Ev) :
    wellLockedAux ((List.replicate n [Ev.lockAcq, Ev.lockRel]).flatten ++ t)
      false = wellLockedAux t false := by
  induction n with
  | zero => simp
  | succ m ih => simpa [List.replicate_succ] using ih

@[simp]
theorem wla_replicate_pairs_nil (n : Nat) :
    wellLockedAux ((List.replicate n [Ev.lockAcq, Ev.lockRel]).flatten) false =
      true := by
  have h := wla_replicate_pairs n []
  simpa using h

/-- C9: in every execution of the four resolution commands, the cache
mutex
is acquired and released in short synchronous sections and never held
across an asynchronous suspension point (state lookup, database
round-trip, or render wait): every possible event trace is well-locked. -/
theorem commands_never_hold_lock_across_await
    (env : Env) (cache : Option CacheManager) (fs : FS)
    (pageId documentId : Int) :
    wellLocked (get_page_image_url env cache fs pageId).2.2 = true ∧
    wellLocked (get_thumbnail_url env cache fs pageId).2.2 = true ∧
    wellLocked (get_preview_url env cache fs pageId).2.2 = true ∧
    wellLocked (prefetch_document_thumbnails env cache fs documentId).2.2 =
      true := by
  refine ⟨?_, ?_, ?_, ?_⟩
  · unfold get_page_image_url
    unfold wellLocked
    repeat' split
    all_goals simp [readSourceEv]
    all_goals repeat' split
    all_goals simp
  · unfold get_thumbnail_url
    unfold wellLocked
    repeat' split
    all_goals simp
  · unfold get_preview_url
    unfold wellLocked
    repeat' split
    all_goals simp
  · unfold prefetch_document_thumbnails
    unfold wellLocked
    repeat' split
    all_goals simp
    all_goals (split_ifs <;> simp)

/-! ### Claim theorem: full-image resolution order (C1) -/

/-- The resolution order exactly as the specification words it: a
direct-image source is returned immediately with no cache interaction;
otherwise a present original-tier entry is returned; otherwise a
renderable PDF source whose render succeeds is persisted to the original
tier and returned; otherwise the page's binary column is fetched,
persisted and returned when present, and the request fails with NotFound
exactly when that final fallback is absent. -/
def page_resolution_spec (render : FsPath → Int → Option Bytes)
    (cm : CacheManager) (dbName : String) (fs : FS) (pageId : Int)
    (prow : PageRow) : Except AppError String × FS :=
  let source := classify_source fs prow.sourcePath
  match source with
  | SourceType.image p => (Except.ok (pathToString p), fs)
  | _ =>
    if fs.pathExists (cm.original_path dbName pageId) then
      (Except.ok (pathToString (cm.original_path dbName pageId)), fs)
    else
      let fallback :=
        match prow.imageContents with
        | Option.some contents =>
          match cm.save_original fs contents dbName pageId with
          | (Except.error e, fs2) => (Except.error e, fs2)
          | (Except.ok q, fs2) => (Except.ok (pathToString q), fs2)
        | Option.none =>
          (Except.error (AppError.notFound
            ("Page " ++ toString pageId ++ " has no image contents")), fs)
      match source with
      | SourceType.pdf p =>
        match render p prow.pageNum with
        | Option.some bytes =>
          match cm.save_original fs bytes dbName pageId with
          | (Except.error e, fs2) => (Except.error e, fs2)
          | (Except.ok q, fs2) => (Except.ok (pathToString q), fs2)
        | Option.none => fallback
      | _ => fallback

/-- C1: on a connected workspace with an initialized cache and an
existing page row, `get_page_image_url` computes exactly the
specification's tiered resolution (result and final filesystem state
agree with `page_resolution_spec`). -/
theorem get_page_image_url_resolution_order
    (env : Env) (cache : Option CacheManager) (fs : FS) (pageId : Int)
    (dbName : String) (db : Db) (cm : CacheManager) (prow : PageRow)
    (h1 : env.dbIdentifier = Option.some dbName)
    (h2 : env.pool = Option.some db)
    (h3 : cache = Option.some cm)
    (h4 : db.findPage pageId = Option.some prow) :
    ((get_page_image_url env cache fs pageId).1,
      (get_page_image_url env cache fs pageId).2.1) =
      page_resolution_spec env.render cm dbName fs pageId prow := by
  subst h3
  have hq : query_page_source_info db pageId =
      Except.ok (prow.pageNum, prow.sourcePath) := by
    simp [query_page_source_info, h4]
  have hq2 : queryPageImageContents db pageId = Except.ok prow.imageContents := by
    simp [queryPageImageContents, h4]
  cases hs : classify_source fs prow.sourcePath with
  | image p =>
    simp [get_page_image_url, page_resolution_spec, h1, h2, hq, hs]
  | pdf p =>
    simp only [get_page_image_url, page_resolution_spec, h1, h2, hq, hq2, hs,
      check_and_get_original_path, saveOriginalCmd, read_bytes_from_source]
    by_cases hex : fs.pathExists (cm.original_path dbName pageId) = true
    · simp [hex]
    · have hex' : fs.pathExists (cm.original_path dbName pageId) = false := by
        simpa using hex
      cases hr : env.render p prow.pageNum with
      | some bytes =>
        cases hsave : cm.save_original fs bytes dbName pageId with
        | mk r fs2 => cases r <;> simp [hex', hr, hsave]
      | none =>
        cases hic : prow.imageContents with
        | some contents =>
          cases hsave : cm.save_original fs contents dbName pageId with
          | mk r fs2 => cases r <;> simp [hex', hr, hic, hsave]
        | none => simp [hex', hr, hic]
  | none =>
    simp only [get_page_image_url, page_resolution_spec, h1, h2, hq, hq2, hs,
      check_and_get_original_path, saveOriginalCmd, read_bytes_from_source]
    by_cases hex : fs.pathExists (cm.original_path dbName pageId) = true
    · simp [hex]
    · have hex' : fs.pathExists (cm.original_path dbName pageId) = false := by
        simpa using hex
      cases hic : prow.imageContents with
      | some contents =>
        cases hsave : cm.save_original fs contents dbName pageId with
        | mk r fs2 => cases r <;> simp [hex', hic, hsave]
      | none => simp [hex', hic]

/-- C1, witness. -/
theorem get_page_image_url_resolution_order_witness :
    ((get_page_image_url envC2 (Option.some cmTest) fsEmpty 1).1,
      (get_page_image_url envC2 (Option.some cmTest) fsEmpty 1).2.1) =
      page_resolution_spec envC2.render cmTest "db" fsEmpty 1
        { id := 1, documentId := 1, pageNum := 1, sourcePath := Option.none,
          imageContents := Option.some [9] } := by
  exact get_page_image_url_resolution_order envC2 (Option.some cmTest) fsEmpty 1
    "db" dbC2 cmTest _ rfl rfl rfl (by decide)

/-! ### Prefetch machinery (C8) -/

theorem pathExists_writeFile_mono (fs : FS) (q : FsPath) (b : Bytes) (p : FsPath)
    (h : fs.pathExists p = true) : ((fs.writeFile q b).2).pathExists p = true := by
  by_cases hpq : p = q
  · subst hpq
    exact pathExists_writeFile fs p b
  · have h1 := fileContent_writeFile_other fs q p b hpq
    have h2 := dirs_writeFile fs q b
    simp only [FS.pathExists, fileExists_eq_isSome_fileContent, h1, h2] at h ⊢
    exact h

theorem pathExists_writeFile_other_false (fs : FS) (q : FsPath) (b : Bytes)
    (p : FsPath) (hpq : p ≠ q) (h : fs.pathExists p = false) :
    ((fs.writeFile q b).2).pathExists p = false := by
  have h1 := fileContent_writeFile_other fs q p b hpq
  have h2 := dirs_writeFile fs q b
  simp only [FS.pathExists, fileExists_eq_isSome_fileContent, h1, h2] at h ⊢
  exact h

theorem generate_thumbnail_pathExists_mono
    (cm : CacheManager) (ops : ImgOps) (fs : FS) (b : Bytes) (dbName : String)
    (chunkId : Int) (p : FsPath) (h : fs.pathExists p = true) :
    ((cm.generate_thumbnail_from_bytes ops fs b dbName chunkId).2).pathExists p =
      true := by
  unfold CacheManager.generate_thumbnail_from_bytes
  by_cases hx : fs.pathExists (cm.thumbnail_path dbName chunkId) = true
  · simp [hx, h]
  · have hx' : fs.pathExists (cm.thumbnail_path dbName chunkId) = false := by
      simpa using hx
    cases hd : ops.decode b with
    | none => simp [hx', hd, pathExists_createDirAll_mono fs _ p h]
    | some img =>
      simp only [hx', hd, Bool.false_eq_true, if_false]
      exact pathExists_writeFile_mono _ _ _ _
        (pathExists_createDirAll_mono fs _ p h)

theorem generate_thumbnail_pathExists_other_false
    (cm : CacheManager) (ops : ImgOps) (fs : FS) (b : Bytes) (dbName : String)
    (chunkId : Int) (p : FsPath)
    (hne : p ≠ cm.thumbnail_path dbName chunkId)
    (hlen : cm.cacheDir.length + 3 ≤ p.length)
    (h : fs.pathExists p = false) :
    ((cm.generate_thumbnail_from_bytes ops fs b dbName chunkId).2).pathExists p =
      false := by
  have hdl : (cm.thumbnail_path dbName chunkId).dropLast.length < p.length := by
    rw [List.length_dropLast, thumbnail_path_length]
    omega
  unfold CacheManager.generate_thumbnail_from_bytes
  by_cases hx : fs.pathExists (cm.thumbnail_path dbName chunkId) = true
  · simp [hx, h]
  · have hx' : fs.pathExists (cm.thumbnail_path dbName chunkId) = false := by
      simpa using hx
    cases hd : ops.decode b with
    | none => simp [hx', hd, pathExists_createDirAll_of_long fs _ p hdl h]
    | some img =>
      simp only [hx', hd, Bool.false_eq_true, if_false]
      exact pathExists_writeFile_other_false _ _ _ _ hne
        (pathExists_createDirAll_of_long fs _ p hdl h)

theorem generate_thumbnail_failWrites
    (cm : CacheManager) (ops : ImgOps) (fs : FS) (b : Bytes) (dbName : String)
    (chunkId : Int) :
    ((cm.generate_thumbnail_from_bytes ops fs b dbName chunkId).2).failWrites =
      fs.failWrites := by
  unfold CacheManager.generate_thumbnail_from_bytes
  by_cases hx : fs.pathExists (cm.thumbnail_path dbName chunkId) = true
  · simp [hx]
  · have hx' : fs.pathExists (cm.thumbnail_path dbName chunkId) = false := by
      simpa using hx
    cases hd : ops.decode b with
    | none => simp [hx', hd, FS.createDirAll]
    | some img =>
      simp only [hx', hd, Bool.false_eq_true, if_false]
      rw [failWrites_writeFile]
      rfl

theorem generate_thumbnail_success
    (cm : CacheManager) (ops : ImgOps) (fs : FS) (b : Bytes) (dbName : String)
    (chunkId : Int)
    (hmiss : fs.pathExists (cm.thumbnail_path dbName chunkId) = false)
    (hdec : (ops.decode b).isSome = true)
    (hwr : fs.failWrites.contains (cm.thumbnail_path dbName chunkId) = false) :
    (∃ q, (cm.generate_thumbnail_from_bytes ops fs b dbName chunkId).1 =
      Except.ok q) ∧
    ((cm.generate_thumbnail_from_bytes ops fs b dbName chunkId).2).pathExists
      (cm.thumbnail_path dbName chunkId) = true := by
  obtain ⟨img, himg⟩ := Option.isSome_iff_exists.mp hdec
  have hwr1 : (fs.createDirAll
      (cm.thumbnail_path dbName chunkId).dropLast).failWrites.contains
      (cm.thumbnail_path dbName chunkId) = false := by
    simpa [FS.createDirAll] using hwr
  have hgen : cm.generate_thumbnail_from_bytes ops fs b dbName chunkId =
      (fs.createDirAll (cm.thumbnail_path dbName chunkId).dropLast).writeFile
        (cm.thumbnail_path dbName chunkId)
        (ops.encodeWebP (ops.resize img 200 200)) := by
    unfold CacheManager.generate_thumbnail_from_bytes
    simp [hmiss, himg]
  rw [hgen]
  exact ⟨⟨_, (fileContent_writeFile_ok _ _ _ hwr1).1⟩, pathExists_writeFile _ _ _⟩

/-- Correctness of the prefetch generation loop: with pairwise-distinct
target paths, all of them cache misses, decodable bytes and succeeding
writes, the loop generates one thumbnail per row, counts them all, and
preserves every pre-existing path. -/
theorem prefetchLoop_spec (cm : CacheManager) (ops : ImgOps) (dbName : String) :
    ∀ (rows : List (Int × Bytes)) (fs : FS) (g : Nat),
    (rows.map (fun r => cm.thumbnail_path dbName r.1)).Nodup →
    (∀ r ∈ rows, fs.pathExists (cm.thumbnail_path dbName r.1) = false) →
    (∀ r ∈ rows, (ops.decode r.2).isSome = true) →
    (∀ r ∈ rows, fs.failWrites.contains (cm.thumbnail_path dbName r.1) = false) →
    (prefetchLoop (Option.some cm) ops dbName rows fs g).2 = g + rows.length ∧
    (∀ r ∈ rows,
      ((prefetchLoop (Option.some cm) ops dbName rows fs g).1).pathExists
        (cm.thumbnail_path dbName r.1) = true) ∧
    (∀ p, fs.pathExists p = true →
      ((prefetchLoop (Option.some cm) ops dbName rows fs g).1).pathExists p =
        true) ∧
    ((prefetchLoop (Option.some cm) ops dbName rows fs g).1).failWrites =
      fs.failWrites := by
  intro rows
  induction rows with
  | nil =>
    intro fs g _ _ _ _
    refine ⟨by simp [prefetchLoop], ?_, ?_, rfl⟩
    · intro r hr
      simp at hr
    · intro p hp
      simpa [prefetchLoop] using hp
  | cons head rest ih =>
    intro fs g hnodup hmiss hdec hwr
    obtain ⟨cid, b⟩ := head
    have hmiss0 := hmiss (cid, b) (List.mem_cons_self _ _)
    have hdec0 := hdec (cid, b) (List.mem_cons_self _ _)
    have hwr0 := hwr (cid, b) (List.mem_cons_self _ _)
    have hsucc := generate_thumbnail_success cm ops fs b dbName cid
      hmiss0 hdec0 hwr0
    obtain ⟨⟨q, hq⟩, hafter⟩ := hsucc
    have hnodup' := hnodup
    rw [List.map_cons, List.nodup_cons] at hnodup'
    obtain ⟨hhead_notin, hnodup_rest⟩ := hnodup'
    set fs2 := (cm.generate_thumbnail_from_bytes ops fs b dbName cid).2 with hfs2
    have hfw2 : fs2.failWrites = fs.failWrites :=
      generate_thumbnail_failWrites cm ops fs b dbName cid
    have hne_rest : ∀ r ∈ rest,
        cm.thumbnail_path dbName r.1 ≠ cm.thumbnail_path dbName cid := by
      intro r hr hcontra
      exact hhead_notin (by
        rw [← hcontra]
        exact List.mem_map_of_mem _ hr)
    have hmiss_rest : ∀ r ∈ rest,
        fs2.pathExists (cm.thumbnail_path dbName r.1) = false := by
      intro r hr
      exact generate_thumbnail_pathExists_other_false cm ops fs b dbName cid _
        (hne_rest r hr) (by rw [thumbnail_path_length]) (hmiss r (List.mem_cons_of_mem _ hr))
    have hdec_rest : ∀ r ∈ rest, (ops.decode r.2).isSome = true := by
      intro r hr
      exact hdec r (List.mem_cons_of_mem _ hr)
    have hwr_rest : ∀ r ∈ rest,
        fs2.failWrites.contains (cm.thumbnail_path dbName r.1) = false := by
      intro r hr
      rw [hfw2]
      exact hwr r (List.mem_cons_of_mem _ hr)
    have hstep : prefetchLoop (Option.some cm) ops dbName ((cid, b) :: rest) fs g =
        prefetchLoop (Option.some cm) ops dbName rest fs2 (g + 1) := by
      rcases hgg : cm.generate_thumbnail_from_bytes ops fs b dbName cid with ⟨r1, gfs⟩
      rw [hgg] at hq
      simp only at hq
      subst hq
      have hcmd : generateThumbnailCmd (Option.some cm) ops fs b dbName cid =
          (Except.ok q, gfs) := by
        simp [generateThumbnailCmd, hgg]
      simp [prefetchLoop, hcmd, hfs2, hgg]
    obtain ⟨hcount, hall, hmono, hfw⟩ :=
      ih fs2 (g + 1) hnodup_rest hmiss_rest hdec_rest hwr_rest
    rw [hstep]
    refine ⟨by rw [hcount]; simp; omega, ?_, ?_, by rw [hfw, hfw2]⟩
    · intro r hr
      rcases List.mem_cons.mp hr with hr1 | hr2
      · rw [hr1]
        exact hmono _ hafter
      · exact hall r hr2
    · intro p hp
      exact hmono p (generate_thumbnail_pathExists_mono cm ops fs b dbName cid p hp)

theorem count_awaitDb_replicate (n : Nat) :
    ((List.replicate n [Ev.lockAcq, Ev.lockRel]).flatten).count Ev.awaitDb =
      0 := by
  induction n with
  | zero => rfl
  | succ m ih => simp [List.replicate_succ, List.count_cons, ih]

theorem count_awaitDb_pairs {α : Type} (rows : List α) :
    ((rows.map (fun _ => [Ev.lockAcq, Ev.lockRel])).flatten).count Ev.awaitDb =
      0 := by
  simpa using count_awaitDb_replicate rows.length

/-- C8: for a document whose pages each contribute exactly one chunk (the
stage-1 metadata query returns the chunk ids `cids`, pairwise distinct,
and the single batch query returns exactly one row of decodable bytes
per id), with no thumbnail cached and writes succeeding,
`prefetch_document_thumbnails` returns the number of chunks, leaves a
thumbnail cache hit for every chunk id, an immediately repeated call
returns 0, and the whole run performs at most two database round-trips
(one metadata query plus one batch fetch). -/
theorem prefetch_document_thumbnails_complete
    (env : Env) (cache : Option CacheManager) (fs : FS) (documentId : Int)
    (dbName : String) (db : Db) (cm : CacheManager)
    (cids : List Int) (rows : List (Int × Bytes))
    (h1 : env.dbIdentifier = Option.some dbName)
    (h2 : env.pool = Option.some db)
    (h3 : cache = Option.some cm)
    (hids : db.prefetchChunkIds documentId = cids)
    (hrows : db.batchChunks cids = rows)
    (hfst : rows.map Prod.fst = cids)
    (hnodup : (cids.map (fun i => cm.thumbnail_path dbName i)).Nodup)
    (hmiss : ∀ i ∈ cids, fs.pathExists (cm.thumbnail_path dbName i) = false)
    (hdec : ∀ r ∈ rows, (env.imgOps.decode r.2).isSome = true)
    (hwr : ∀ i ∈ cids,
      fs.failWrites.contains (cm.thumbnail_path dbName i) = false) :
    (prefetch_document_thumbnails env cache fs documentId).1 =
      Except.ok cids.length ∧
    (∀ i ∈ cids,
      ((prefetch_document_thumbnails env cache fs documentId).2.1).pathExists
        (cm.thumbnail_path dbName i) = true) ∧
    (prefetch_document_thumbnails env cache
        ((prefetch_document_thumbnails env cache fs documentId).2.1)
        documentId).1 = Except.ok 0 ∧
    ((prefetch_document_thumbnails env cache fs documentId).2.2).count
      Ev.awaitDb ≤ 2 := by
  subst h3
  have hlenrows : rows.length = cids.length := by
    rw [← hfst, List.length_map]
  by_cases hemp : cids.isEmpty = true
  · have hcn : cids = [] := by
      cases cids with
      | nil => rfl
      | cons a t => simp [List.isEmpty] at hemp
    subst hcn
    have hrn : rows = [] := by
      cases rows with
      | nil => rfl
      | cons r t => simp at hfst
    subst hrn
    have heval : prefetch_document_thumbnails env (Option.some cm) fs documentId =
        (Except.ok 0, fs,
          [Ev.await, Ev.await, Ev.awaitDb] ++
            (([] : List Int).map (fun _ => [Ev.lockAcq, Ev.lockRel])).flatten) := by
      simp [prefetch_document_thumbnails, h1, h2, hids]
    rw [heval]
    refine ⟨rfl, ?_, ?_, ?_⟩
    · intro i hi
      simp at hi
    · simp [prefetch_document_thumbnails, h1, h2, hids]
    · simp [List.count_cons]
  · have hne : cids.isEmpty = false := by
      simpa using hemp
    have hufirst : cids.filter (fun chunkId =>
        if hasThumbnailCmd (Option.some cm) fs dbName chunkId = Except.ok true
        then false else true) = cids := by
      apply List.filter_eq_self.mpr
      intro i hi
      have hh : hasThumbnailCmd (Option.some cm) fs dbName i = Except.ok false := by
        simp [hasThumbnailCmd, CacheManager.has_thumbnail, hmiss i hi]
      simp [hh]
    have hrow_mem : ∀ r ∈ rows, r.1 ∈ cids := by
      intro r hr
      rw [← hfst]
      exact List.mem_map_of_mem _ hr
    have hnodup_rows : (rows.map (fun r => cm.thumbnail_path dbName r.1)).Nodup := by
      have hmm : rows.map (fun r => cm.thumbnail_path dbName r.1) =
          cids.map (fun i => cm.thumbnail_path dbName i) := by
        rw [← hfst, List.map_map]
        rfl
      rw [hmm]
      exact hnodup
    obtain ⟨hcount, hall, hmono, _⟩ := prefetchLoop_spec cm env.imgOps dbName rows
      fs 0 hnodup_rows (fun r hr => hmiss r.1 (hrow_mem r hr)) hdec
      (fun r hr => hwr r.1 (hrow_mem r hr))
    have heval : prefetch_document_thumbnails env (Option.some cm) fs documentId =
        (Except.ok (prefetchLoop (Option.some cm) env.imgOps dbName rows fs 0).2,
          (prefetchLoop (Option.some cm) env.imgOps dbName rows fs 0).1,
          [Ev.await, Ev.await, Ev.awaitDb] ++
            (cids.map (fun _ => [Ev.lockAcq, Ev.lockRel])).flatten ++
            [Ev.awaitDb] ++
            (rows.map (fun _ => [Ev.lockAcq, Ev.lockRel])).flatten) := by
      simp only [prefetch_document_thumbnails, h1, h2, hids, hufirst, hrows, hne,
        Bool.false_eq_true, if_false]
    have hhit : ∀ i ∈ cids,
        ((prefetchLoop (Option.some cm) env.imgOps dbName rows fs 0).1).pathExists
          (cm.thumbnail_path dbName i) = true := by
      intro i hi
      rw [← hfst] at hi
      obtain ⟨r, hr, hri⟩ := List.mem_map.mp hi
      rw [← hri]
      exact hall r hr
    refine ⟨?_, ?_, ?_, ?_⟩
    · rw [heval]
      simp only
      rw [hcount, hlenrows]
      simp
    · intro i hi
      rw [heval]
      exact hhit i hi
    · rw [heval]
      simp only
      have husecond : cids.filter (fun chunkId =>
          if hasThumbnailCmd (Option.some cm)
              ((prefetchLoop (Option.some cm) env.imgOps dbName rows fs 0).1)
              dbName chunkId = Except.ok true
          then false else true) = [] := by
        rw [List.filter_eq_nil_iff]
        intro i hi
        have hh : hasThumbnailCmd (Option.some cm)
            ((prefetchLoop (Option.some cm) env.imgOps dbName rows fs 0).1)
            dbName i = Except.ok true := by
          simp [hasThumbnailCmd, CacheManager.has_thumbnail, hhit i hi]
        simp [hh]
      simp only [prefetch_document_thumbnails, h1, h2, hids, husecond]
      rfl
    · rw [heval]
      simp only
      simp [List.count_append, List.count_cons, count_awaitDb_pairs,
        count_awaitDb_replicate]

/-- A two-page document (id 5) with one decodable chunk per page. -/
def dbC8 : Db :=
  { pages := [
      { id := 1, documentId := 5, pageNum := 1,
        sourcePath := Option.none, imageContents := Option.none },
      { id := 2, documentId := 5, pageNum := 2,
        sourcePath := Option.none, imageContents := Option.none }],
    chunks := [
      { id := 11, parentPage := 1, contents := [1] },
      { id := 12, parentPage := 2, contents := [2] }] }

def envC8 : Env :=
  { dbIdentifier := Option.some "db", pool := Option.some dbC8,
    render := fun _ _ => Option.none, imgOps := opsTest }

/-- C8, witness. -/
theorem prefetch_document_thumbnails_complete_witness :
    (prefetch_document_thumbnails envC8 (Option.some cmTest) fsEmpty 5).1 =
      Except.ok 2 ∧
    (prefetch_document_thumbnails envC8 (Option.some cmTest)
        ((prefetch_document_thumbnails envC8 (Option.some cmTest) fsEmpty 5).2.1)
        5).1 = Except.ok 0 := by
  have h := prefetch_document_thumbnails_complete envC8 (Option.some cmTest)
    fsEmpty 5 "db" dbC8 cmTest [11, 12] [(11, [1]), (12, [2])]
    rfl rfl rfl (by decide) (by decide) (by decide) (by decide)
    (by decide) (by decide) (by decide)
  exact ⟨h.1, h.2.2.1⟩

end AutoRag
